import Mathlib

/-! Meter widget: verification development.

A shallow embedding of `src/src/meter.cpp` (classes `MeterPrivate` and `Meter`).

Conventions of the embedding:

* A `qreal` member (a C++ `double`) is a `ℚ`: a finite value, compared exactly.
  The arithmetic of a paint is a parameter of the paint, see the section on
  painting.
* `uint` is a `Nat` kept below `2 ^ 32`; arithmetic on it wraps modulo `2 ^ 32`.
* `int` is an `Int`; a conversion from `uint` to `int` is two's complement.
* `QMultiMap< int, RangeData >` is a list of key/value pairs in iteration
  order: ascending keys, and for equal keys the most recently inserted first.
* The signals a slot emits and the `QWidget` requests it makes (`update`,
  `resize`) are returned as a list of `Effect`s, in the order they happen.
* A `QPainter` is the list of primitives issued so far, together with the one
  piece of painter state the code reads back (the current font) and the stack
  of `save()`.
-/

namespace MeterGauge

/-! ## Machine integers -/

/-- Modulus of the 32-bit `uint` type. -/
def UINT_MOD : Nat := 2 ^ 32

/-- Conversion of a `uint` value to `int` (two's complement). -/
def toInt32 (n : Nat) : Int :=
  if n % UINT_MOD < 2 ^ 31 then ((n % UINT_MOD : Nat) : Int)
  else ((n % UINT_MOD : Nat) : Int) - (UINT_MOD : Int)

/-- Conversion of a `double` to `int`: truncation toward zero. A value outside
the range of `int` is undefined in C++; it gives `INT_MIN`, as the x86
conversion does. -/
def truncToInt (x : ℚ) : Int :=
  let t := if 0 ≤ x then Rat.floor x else -(Rat.floor (-x))
  if -2147483648 ≤ t ∧ t ≤ 2147483647 then t else -2147483648

/-! ## Data model -/

/-- `QColor`, reduced to its four 16-bit channels. -/
structure QColor where
  red : Nat
  green : Nat
  blue : Nat
  alpha : Nat
  deriving DecidableEq, Repr

namespace QColor

def black : QColor := ⟨0, 0, 0, 65535⟩
def white : QColor := ⟨65535, 65535, 65535, 65535⟩
def blue_ : QColor := ⟨0, 0, 65535, 65535⟩
def yellow : QColor := ⟨65535, 65535, 0, 65535⟩
def transparent : QColor := ⟨0, 0, 0, 0⟩

end QColor

/-- `MeterPrivate::RangeData`. -/
structure RangeData where
  start : ℚ
  stop : ℚ
  color : QColor
  deriving DecidableEq, Repr

/-- The entries of a `QMultiMap< int, RangeData >` in iteration order. -/
abbrev RangeMap := List (Int × RangeData)

/-- `QMultiMap::insert`: the new item goes before the first item whose key is
not smaller, so equal keys are kept and iterate newest first. -/
def RangeMap.insert (k : Int) (v : RangeData) : RangeMap → RangeMap
  | [] => [(k, v)]
  | e :: rest =>
    if k ≤ e.1 then (k, v) :: e :: rest else e :: RangeMap.insert k v rest

/-- The data members of `MeterPrivate` (the back pointer `q` apart). -/
structure MeterPrivate where
  drawValue : Bool
  drawGridValues : Bool
  valuePrecision : Int
  scalePrecision : Int
  currentThreshold : Int
  radius : Nat
  startScaleAngle : Nat
  stopScaleAngle : Nat
  minValue : ℚ
  maxValue : ℚ
  value : ℚ
  scaleStep : ℚ
  scaleGridStep : ℚ
  backgroundColor : QColor
  needleColor : QColor
  textColor : QColor
  gridColor : QColor
  label : String
  unitsLabel : String
  ranges : RangeMap
  deriving DecidableEq, Repr

/-- The constructor `MeterPrivate::MeterPrivate`. -/
def MeterPrivate.init : MeterPrivate :=
  { drawValue := true
    drawGridValues := true
    valuePrecision := 0
    scalePrecision := 0
    currentThreshold := 0
    radius := 100
    startScaleAngle := 30
    stopScaleAngle := 330
    minValue := 0
    maxValue := 100
    value := 0
    scaleStep := 1
    scaleGridStep := 10
    backgroundColor := QColor.black
    needleColor := QColor.blue_
    textColor := QColor.white
    gridColor := QColor.white
    label := ""
    unitsLabel := ""
    ranges := [] }

/-- What a slot does besides changing the members: signals and widget requests. -/
inductive Effect where
  | update
  | resize (w h : Int)
  | valueChanged (currentValue : ℚ)
  | thresholdFired (thresholdIndex : Int)
  deriving DecidableEq, Repr

/-- The loop of `MeterPrivate::thresholdFired` over the map entries: returns
`res` and the new `currentThreshold`. -/
def thresholdFiredLoop (value : ℚ) : RangeMap → Int → Bool × Int
  | [], cur => (false, cur)
  | e :: rest, cur =>
    if value ≥ e.2.start ∧ value < e.2.stop then
      (decide (cur ≠ e.1), e.1)
    else thresholdFiredLoop value rest cur

/-- `MeterPrivate::thresholdFired`. -/
def MeterPrivate.thresholdFired (d : MeterPrivate) : Bool × MeterPrivate :=
  let r := thresholdFiredLoop d.value d.ranges d.currentThreshold
  (r.1, { d with currentThreshold := r.2 })

end MeterGauge

/-! ## The public interface of `Meter` -/

namespace MeterGauge.Meter

open MeterGauge

def minValue (d : MeterPrivate) : ℚ := d.minValue
def maxValue (d : MeterPrivate) : ℚ := d.maxValue
def value (d : MeterPrivate) : ℚ := d.value
def radius (d : MeterPrivate) : Nat := d.radius

/-- `Meter::setMinValue`. -/
def setMinValue (v : ℚ) (d : MeterPrivate) : MeterPrivate × List Effect :=
  let d1 := { d with minValue := v }
  let d2 := if d1.minValue > d1.maxValue then { d1 with maxValue := d1.minValue } else d1
  (d2, [Effect.update])

/-- `Meter::setMaxValue`. -/
def setMaxValue (v : ℚ) (d : MeterPrivate) : MeterPrivate × List Effect :=
  let d1 := { d with maxValue := v }
  let d2 := if d1.minValue > d1.maxValue then { d1 with minValue := d1.maxValue } else d1
  (d2, [Effect.update])

/-- `Meter::setValue`. -/
def setValue (v : ℚ) (d : MeterPrivate) : MeterPrivate × List Effect :=
  if v ≥ d.minValue ∧ v ≤ d.maxValue then
    let d1 := { d with value := v }
    let r := d1.thresholdFired
    if r.1 then
      (r.2, [Effect.update, Effect.valueChanged v, Effect.thresholdFired r.2.currentThreshold])
    else
      (r.2, [Effect.update, Effect.valueChanged v])
  else (d, [])

def setBackgroundColor (c : QColor) (d : MeterPrivate) : MeterPrivate × List Effect :=
  ({ d with backgroundColor := c }, [Effect.update])

def setNeedleColor (c : QColor) (d : MeterPrivate) : MeterPrivate × List Effect :=
  ({ d with needleColor := c }, [Effect.update])

def setTextColor (c : QColor) (d : MeterPrivate) : MeterPrivate × List Effect :=
  ({ d with textColor := c }, [Effect.update])

def setGridColor (c : QColor) (d : MeterPrivate) : MeterPrivate × List Effect :=
  ({ d with gridColor := c }, [Effect.update])

def setLabel (l : String) (d : MeterPrivate) : MeterPrivate × List Effect :=
  ({ d with label := l }, [Effect.update])

def setUnitsLabel (l : String) (d : MeterPrivate) : MeterPrivate × List Effect :=
  ({ d with unitsLabel := l }, [Effect.update])

/-- `Meter::minimumSizeHint`: `d->radius * 2 + 2` is evaluated in `uint` and
converted to the `int` that `QSize` takes. -/
def minimumSizeHint (d : MeterPrivate) : Int × Int :=
  (toInt32 ((d.radius * 2 + 2) % UINT_MOD), toInt32 ((d.radius * 2 + 2) % UINT_MOD))

/-- `Meter::sizeHint`. -/
def sizeHint (d : MeterPrivate) : Int × Int := minimumSizeHint d

/-- `Meter::setRadius`. -/
def setRadius (r : Nat) (d : MeterPrivate) : MeterPrivate × List Effect :=
  let r0 := r % UINT_MOD
  let r1 := if r0 < 45 then 45 else r0
  let d1 := { d with radius := r1 }
  (d1, [Effect.resize (sizeHint d1).1 (sizeHint d1).2, Effect.update])

def setStartScaleAngle (a : Nat) (d : MeterPrivate) : MeterPrivate × List Effect :=
  ({ d with startScaleAngle := a % UINT_MOD }, [Effect.update])

def setStopScaleAngle (a : Nat) (d : MeterPrivate) : MeterPrivate × List Effect :=
  ({ d with stopScaleAngle := a % UINT_MOD }, [Effect.update])

/-- `Meter::setScaleStep`. -/
def setScaleStep (s : ℚ) (d : MeterPrivate) : MeterPrivate × List Effect :=
  if s ≥ 0 then ({ d with scaleStep := s }, [Effect.update]) else (d, [])

/-- `Meter::setScaleGridStep`. -/
def setScaleGridStep (s : ℚ) (d : MeterPrivate) : MeterPrivate × List Effect :=
  if s ≥ 0 then ({ d with scaleGridStep := s }, [Effect.update]) else (d, [])

def setDrawValue (on_ : Bool) (d : MeterPrivate) : MeterPrivate × List Effect :=
  ({ d with drawValue := on_ }, [Effect.update])

/-- `Meter::setDrawValuePrecision`. -/
def setDrawValuePrecision (p : Int) (d : MeterPrivate) : MeterPrivate × List Effect :=
  if p ≥ 0 then ({ d with valuePrecision := p }, [Effect.update]) else (d, [])

/-- `Meter::setScaleLabelPrecision`. -/
def setScaleLabelPrecision (p : Int) (d : MeterPrivate) : MeterPrivate × List Effect :=
  if p ≥ 0 then ({ d with scalePrecision := p }, [Effect.update]) else (d, [])

def setDrawGridValues (on_ : Bool) (d : MeterPrivate) : MeterPrivate × List Effect :=
  ({ d with drawGridValues := on_ }, [Effect.update])

/-- `Meter::setThresholdRange`. -/
def setThresholdRange (start stop : ℚ) (thresholdIndex : Int) (color : QColor)
    (d : MeterPrivate) : MeterPrivate × List Effect :=
  let d1 := { d with ranges := RangeMap.insert thresholdIndex ⟨start, stop, color⟩ d.ranges }
  let r := d1.thresholdFired
  if r.1 then (r.2, [Effect.thresholdFired r.2.currentThreshold, Effect.update])
  else (r.2, [Effect.update])

end MeterGauge.Meter

/-! ## Painting

The numbers of a paint are `qreal`s computed in `double` arithmetic. The paint
is written over an arbitrary type `R` of numbers whose operations come with the
environment `PaintEnv R`, next to what the toolkit supplies. `PaintEnv.exact`
interprets them in `ℚ`, `PaintEnv.double` in IEEE double precision. A literal
such as `20.0` is `env.ofRat 20`, an `int` operand converted to `double` is
`env.ofInt`, a `uint` operand is `env.ofUInt`, and a `double` passed for an `int`
parameter goes through `env.toInt`. -/

namespace MeterGauge

/-- `QRectF( x, y, w, h )`. -/
structure QRectF (R : Type) where
  x : R
  y : R
  w : R
  h : R
  deriving DecidableEq, Repr

/-- The part of a `QFont` the widget touches. -/
structure QFont where
  family : String
  pixelSize : Int
  bold : Bool
  deriving DecidableEq, Repr

/-- `QFont::setPixelSize`: a size that is not positive is ignored. -/
def QFont.setPixelSize (f : QFont) (n : Int) : QFont :=
  if n ≤ 0 then f else { f with pixelSize := n }

def QFont.setBold (f : QFont) (b : Bool) : QFont := { f with bold := b }

/-- `QRadialGradient( cx, cy, radius, fx, fy )` with its colour stops. -/
structure QRadialGradient (R : Type) where
  cx : R
  cy : R
  radius : R
  fx : R
  fy : R
  stops : List (ℚ × QColor)
  deriving DecidableEq, Repr

/-- Insertion of a stop, kept in ascending position, replacing an equal position. -/
def insertStop (pos : ℚ) (c : QColor) : List (ℚ × QColor) → List (ℚ × QColor)
  | [] => [(pos, c)]
  | s :: rest =>
    if pos < s.1 then (pos, c) :: s :: rest
    else if pos = s.1 then (pos, c) :: rest
    else s :: insertStop pos c rest

/-- `QGradient::setColorAt`. -/
def QRadialGradient.setColorAt {R : Type} (g : QRadialGradient R) (pos : ℚ) (c : QColor) :
    QRadialGradient R :=
  { g with stops := insertStop pos c g.stops }

/-- `MeterPrivate::DrawParams`. -/
structure DrawParams (R : Type) where
  rect : QRectF R
  scaleDegree : R
  startScaleAngle : R
  margin : R
  gridLabelSize : R
  scaleWidth : R
  fontPixelSize : R
  deriving DecidableEq, Repr

/-- The drawing primitives and painter settings that `paintEvent` issues. The
arguments have the types of the `QPainter` overload the call resolves to. -/
inductive Prim (R : Type) where
  | setRenderHintAntialiasing
  | save
  | restore
  | translate (dx dy : R)
  | rotate (a : R)
  | setPenColor (c : QColor)
  | setPen (c : QColor) (width : R)
  | setNoPen
  | setBrush (c : QColor)
  | setBrushGradient (g : QRadialGradient R)
  | setFont (f : QFont)
  | drawEllipseRect (r : QRectF R)
  | drawEllipse (x y w h : Int)
  | drawArc (r : QRectF R) (a alen : Int)
  | drawLine (x1 y1 x2 y2 : Int)
  | drawText (x y : Int) (s : String)
  | drawTextRect (r : QRectF R) (s : String)
  deriving DecidableEq, Repr

/-- The arithmetic of `qreal` and what the toolkit and the C library supply to
a paint: conversions, the four operations, the two comparisons the code uses
(`<` and the `==` of `QVector::contains`), the conversion of a `double` to
`int`, the trigonometric functions, the font of the widget, text measurement
and number formatting. -/
structure PaintEnv (R : Type) where
  ofRat : ℚ → R
  ofUInt : Nat → R
  ofInt : Int → R
  add : R → R → R
  sub : R → R → R
  mul : R → R → R
  div : R → R → R
  neg : R → R
  lt : R → R → Bool
  eq : R → R → Bool
  toInt : R → Int
  qSin : R → R
  qCos : R → R
  qDegreesToRadians : R → R
  font : QFont
  textSize : QFont → String → R × R
  number : R → Int → String

/-- `rect - QMarginsF( m, m, m, m )`: the top left corner moves by `m`, the
size shrinks by `m` twice. -/
def QRectF.shrink {R : Type} (env : PaintEnv R) (r : QRectF R) (m : R) : QRectF R :=
  ⟨env.add r.x m, env.add r.y m, env.sub (env.sub r.w m) m, env.sub (env.sub r.h m) m⟩

/-- `QColor::redF`. -/
def QColor.redF {R : Type} (env : PaintEnv R) (c : QColor) : R :=
  env.div (env.ofUInt c.red) (env.ofRat 65535)

/-- `QColor::greenF`. -/
def QColor.greenF {R : Type} (env : PaintEnv R) (c : QColor) : R :=
  env.div (env.ofUInt c.green) (env.ofRat 65535)

/-- `QColor::blueF`. -/
def QColor.blueF {R : Type} (env : PaintEnv R) (c : QColor) : R :=
  env.div (env.ofUInt c.blue) (env.ofRat 65535)

/-- A `QPainter`: the primitives issued so far, the current font and the fonts
kept by `save()`. -/
structure QPainter (R : Type) where
  font : QFont
  saved : List QFont
  log : List (Prim R)
  deriving DecidableEq, Repr

namespace QPainter

/-- Issue one primitive. -/
def emit {R : Type} (p : QPainter R) (x : Prim R) : QPainter R :=
  { p with log := p.log ++ [x] }

def save {R : Type} (p : QPainter R) : QPainter R :=
  { p with saved := p.font :: p.saved, log := p.log ++ [Prim.save] }

def restore {R : Type} (p : QPainter R) : QPainter R :=
  match p.saved with
  | [] => p.emit Prim.restore
  | f :: rest => { font := f, saved := rest, log := p.log ++ [Prim.restore] }

def setFont {R : Type} (p : QPainter R) (f : QFont) : QPainter R :=
  { p with font := f, log := p.log ++ [Prim.setFont f] }

end QPainter

/-- The objects a `draw...` method works on: the members of `MeterPrivate`,
the painter and the `DrawParams` passed by reference. -/
structure PaintCtx (R : Type) where
  d : MeterPrivate
  painter : QPainter R
  params : DrawParams R

/-- The values `0, 1, ..., n` of `i` in a loop `for( int i = 0; i <= n; ++i )`. -/
def upTo (n : Int) : List Nat := List.range (n + 1).toNat

/-- `MeterPrivate::drawBackground`. -/
def MeterPrivate.drawBackground {R : Type} (env : PaintEnv R) (c : PaintCtx R) : PaintCtx R :=
  let d := c.d
  let p := c.painter.save
  let p := p.emit (Prim.setPenColor d.backgroundColor)
  let p := p.emit (Prim.setBrush d.backgroundColor)
  let params := { c.params with
    rect := ⟨env.ofRat 0, env.ofRat 0, env.ofUInt (d.radius * 2 % UINT_MOD),
      env.ofUInt (d.radius * 2 % UINT_MOD)⟩ }
  let p := p.emit (Prim.drawEllipseRect params.rect)
  let p := p.restore
  { d := d, painter := p, params := params }

/-- The body of the loop of `MeterPrivate::drawRanges`. -/
def drawRangesStep {R : Type} (env : PaintEnv R) (d : MeterPrivate) (params : DrawParams R)
    (r : QRectF R) (p : QPainter R) (it : Int × RangeData) : QPainter R :=
  let p := p.emit (Prim.setPen it.2.color params.scaleWidth)
  let angle := env.add params.startScaleAngle
    (env.mul params.scaleDegree
      (env.div (env.ofRat it.2.start) (env.sub (env.ofRat d.maxValue) (env.ofRat d.minValue))))
  let span := env.sub (env.add params.startScaleAngle
    (env.mul params.scaleDegree
      (env.div (env.ofRat it.2.stop) (env.sub (env.ofRat d.maxValue) (env.ofRat d.minValue)))))
    angle
  p.emit (Prim.drawArc r
    (env.toInt (env.mul (env.sub (env.ofRat (-90)) angle) (env.ofInt 16)))
    (env.toInt (env.mul (env.neg span) (env.ofInt 16))))

/-- `MeterPrivate::drawRanges`. -/
def MeterPrivate.drawRanges {R : Type} (env : PaintEnv R) (c : PaintCtx R) : PaintCtx R :=
  let d := c.d
  let params := { c.params with
    scaleDegree := env.ofUInt ((d.stopScaleAngle + UINT_MOD - d.startScaleAngle) % UINT_MOD) }
  let params := { params with startScaleAngle := env.ofUInt d.startScaleAngle }
  let params := { params with margin := env.div (env.ofUInt d.radius) (env.ofRat 20) }
  let gridLabelSizeFactor : R := env.ofRat 10
  let params := { params with
    scaleWidth := env.div (env.ofUInt d.radius) (env.add gridLabelSizeFactor (env.ofRat 20)) }
  let params := { params with
    gridLabelSize := env.div (env.ofUInt d.radius) gridLabelSizeFactor }
  let params := { params with
    fontPixelSize := env.mul params.gridLabelSize (env.ofRat (3 / 4)) }
  let m := env.add params.margin (env.div params.scaleWidth (env.ofRat 2))
  let r := params.rect.shrink env m
  let p := c.painter.save
  let p := d.ranges.foldl (drawRangesStep env d params r) p
  let p := p.restore
  { d := d, painter := p, params := params }

/-- The long tick of `drawScale`: `drawLine( 0, radius - margin, 0,
radius - gridLabelSize - margin )`. -/
def gridTick {R : Type} (env : PaintEnv R) (d : MeterPrivate) (params : DrawParams R) :
    Prim R :=
  Prim.drawLine 0 (env.toInt (env.sub (env.ofUInt d.radius) params.margin)) 0
    (env.toInt (env.sub (env.sub (env.ofUInt d.radius) params.gridLabelSize) params.margin))

/-- The short tick of `drawScale`: `drawLine( 0, radius - margin, 0,
radius - scaleWidth - margin )`. -/
def scaleTick {R : Type} (env : PaintEnv R) (d : MeterPrivate) (params : DrawParams R) :
    Prim R :=
  Prim.drawLine 0 (env.toInt (env.sub (env.ofUInt d.radius) params.margin)) 0
    (env.toInt (env.sub (env.sub (env.ofUInt d.radius) params.scaleWidth) params.margin))

/-- The body of the first loop of `MeterPrivate::drawScale`; the painter goes
with the vector `alreadyDrawn`. -/
def drawScaleGridStep {R : Type} (env : PaintEnv R) (d : MeterPrivate) (params : DrawParams R)
    (scaleStepInDegree : R) (acc : QPainter R × List R) (i : Nat) : QPainter R × List R :=
  let p := acc.1.emit (gridTick env d params)
  let p := p.emit (Prim.rotate scaleStepInDegree)
  (p, acc.2 ++
    [env.add params.startScaleAngle (env.mul (env.ofInt (i : Int)) scaleStepInDegree)])

/-- The body of the second loop of `MeterPrivate::drawScale`;
`alreadyDrawn.contains( x )` compares with the `==` of `qreal`. -/
def drawScaleStep {R : Type} (env : PaintEnv R) (d : MeterPrivate) (params : DrawParams R)
    (scaleStepInDegree : R) (alreadyDrawn : List R) (p : QPainter R) (i : Nat) : QPainter R :=
  let p :=
    if (alreadyDrawn.any (fun a => env.eq a
        (env.add (env.add params.startScaleAngle scaleStepInDegree)
          (env.mul (env.ofInt (i : Int)) scaleStepInDegree)))) = false then
      p.emit (scaleTick env d params)
    else p
  p.emit (Prim.rotate scaleStepInDegree)

/-- `MeterPrivate::drawScale`. -/
def MeterPrivate.drawScale {R : Type} (env : PaintEnv R) (c : PaintCtx R) : PaintCtx R :=
  let d := c.d
  let params := c.params
  let p := c.painter.save
  let p := p.emit (Prim.setPenColor d.textColor)
  let p := p.emit (Prim.drawArc (params.rect.shrink env params.margin)
    (env.toInt (env.mul (env.sub (env.ofRat (-90)) params.startScaleAngle) (env.ofInt 16)))
    (env.toInt (env.mul (env.neg params.scaleDegree) (env.ofInt 16))))
  let p := p.emit (Prim.translate (env.ofUInt d.radius) (env.ofUInt d.radius))
  let p := p.emit (Prim.rotate params.startScaleAngle)
  let alreadyDrawn : List R := [params.startScaleAngle]
  let pa : QPainter R × List R :=
    if d.scaleGridStep > 0 then
      let stepsCount : Int := env.toInt
        (env.div (env.sub (env.ofRat d.maxValue) (env.ofRat d.minValue))
          (env.ofRat d.scaleGridStep))
      let scaleStepInDegree : R := env.div params.scaleDegree (env.ofInt stepsCount)
      (upTo stepsCount).foldl (drawScaleGridStep env d params scaleStepInDegree)
        (p, alreadyDrawn)
    else
      let p := p.emit (gridTick env d params)
      let p := p.emit (Prim.rotate params.scaleDegree)
      let p := p.emit (gridTick env d params)
      (p, alreadyDrawn ++ [params.scaleDegree])
  let p := pa.1.restore
  let alreadyDrawn := pa.2
  let p :=
    if d.scaleStep > 0 then
      let p := p.save
      let p := p.emit (Prim.setPenColor d.textColor)
      let p := p.emit (Prim.translate (env.ofUInt d.radius) (env.ofUInt d.radius))
      let p := p.emit (Prim.rotate params.startScaleAngle)
      let stepsCount : Int := env.toInt
        (env.div (env.sub (env.ofRat d.maxValue) (env.ofRat d.minValue))
          (env.ofRat d.scaleStep))
      let scaleStepInDegree : R := env.div params.scaleDegree (env.ofInt stepsCount)
      let stepsCount := stepsCount - 2
      let p := p.emit (Prim.rotate scaleStepInDegree)
      let p := (upTo stepsCount).foldl
        (drawScaleStep env d params scaleStepInDegree alreadyDrawn) p
      p.restore
    else p
  { d := d, painter := p, params := params }

/-- The body of the loop of `MeterPrivate::drawLabels`; the painter goes with
the running `val`. -/
def drawLabelsStep {R : Type} (env : PaintEnv R) (d : MeterPrivate) (params : DrawParams R)
    (f : QFont) (startRad deltaRad : R) (acc : QPainter R × R) (i : Nat) : QPainter R × R :=
  let sina := env.qSin (env.add startRad (env.mul (env.ofInt (i : Int)) deltaRad))
  let cosa := env.qCos (env.add startRad (env.mul (env.ofInt (i : Int)) deltaRad))
  let str := env.number acc.2 d.scalePrecision
  let s := env.textSize f str
  let offset := env.sub (env.sub (env.ofUInt d.radius) params.gridLabelSize)
    (env.mul params.margin (env.ofInt 3))
  let x := env.toInt (env.sub (env.mul offset sina) (env.div s.1 (env.ofInt 2)))
  let y := env.toInt (env.add (env.mul offset cosa) (env.div s.2 (env.ofInt 4)))
  (acc.1.emit (Prim.drawText x y str), env.add acc.2 (env.ofRat d.scaleGridStep))

/-- `MeterPrivate::drawLabels`. -/
def MeterPrivate.drawLabels {R : Type} (env : PaintEnv R) (c : PaintCtx R) : PaintCtx R :=
  let d := c.d
  let params := c.params
  let p := c.painter
  let p :=
    if d.scaleGridStep > 0 ∧ d.drawGridValues = true then
      let p := p.save
      let p := p.emit (Prim.translate (env.ofUInt d.radius) (env.ofUInt d.radius))
      let p := p.emit (Prim.setPenColor d.textColor)
      let startRad := env.neg (env.qDegreesToRadians (env.ofUInt d.startScaleAngle))
      let stepsCount : Int := env.toInt
        (env.div (env.sub (env.ofRat d.maxValue) (env.ofRat d.minValue))
          (env.ofRat d.scaleGridStep))
      let deltaRad := env.neg
        (env.qDegreesToRadians (env.div params.scaleDegree (env.ofInt stepsCount)))
      let f := p.font.setPixelSize (env.toInt params.fontPixelSize)
      let p := p.setFont f
      let pv := (upTo stepsCount).foldl (drawLabelsStep env d params f startRad deltaRad)
        (p, env.ofRat d.minValue)
      pv.1.restore
    else p
  let p :=
    if ¬ d.unitsLabel.isEmpty then
      let p := p.save
      let f := p.font.setPixelSize (env.toInt params.fontPixelSize)
      let p := p.setFont f
      let p := p.emit (Prim.setPenColor d.textColor)
      let p := p.emit (Prim.drawTextRect
        ⟨env.ofInt 0,
          env.add (env.mul params.margin (env.ofInt 3)) (env.mul params.gridLabelSize (env.ofInt 3)),
          env.ofUInt (d.radius * 2 % UINT_MOD), env.ofUInt d.radius⟩ d.unitsLabel)
      p.restore
    else p
  let p :=
    if ¬ d.label.isEmpty then
      let p := p.save
      let f := p.font.setPixelSize (env.toInt params.fontPixelSize)
      let p := p.setFont f
      let p := p.emit (Prim.setPenColor d.textColor)
      let p := p.emit (Prim.drawTextRect
        ⟨env.ofInt 0,
          env.sub (env.sub (env.ofUInt (d.radius * 2 % UINT_MOD))
            (env.mul params.margin (env.ofInt 3))) (env.mul params.gridLabelSize (env.ofInt 3)),
          env.ofUInt (d.radius * 2 % UINT_MOD), env.ofUInt d.radius⟩ d.label)
      p.restore
    else p
  let p :=
    if d.drawValue = true then
      let p := p.save
      let f := p.font.setPixelSize (env.toInt (env.mul params.fontPixelSize (env.ofInt 2)))
      let f := f.setBold true
      let p := p.setFont f
      let p := p.emit (Prim.setPenColor d.textColor)
      let p := p.emit (Prim.drawTextRect
        ⟨env.ofInt 0,
          env.sub (env.sub (env.ofUInt (d.radius * 2 % UINT_MOD)) params.margin)
            (env.mul params.gridLabelSize (env.ofInt 2)),
          env.ofUInt (d.radius * 2 % UINT_MOD), env.ofUInt d.radius⟩
        (env.number (env.ofRat d.value) d.valuePrecision))
      p.restore
    else p
  { d := d, painter := p, params := params }

/-- The argument of `painter.rotate` in `MeterPrivate::drawNeedle`. -/
def needleRotation {R : Type} (env : PaintEnv R) (d : MeterPrivate) (params : DrawParams R) :
    R :=
  env.add params.startScaleAngle
    (env.div (env.mul params.scaleDegree (env.ofRat d.value))
      (env.sub (env.ofRat d.maxValue) (env.ofRat d.minValue)))

/-- `MeterPrivate::drawNeedle`. -/
def MeterPrivate.drawNeedle {R : Type} (env : PaintEnv R) (c : PaintCtx R) : PaintCtx R :=
  let d := c.d
  let params := c.params
  let r : R := env.div (env.ofUInt d.radius) (env.ofRat 10)
  let p := c.painter.save
  let p := p.emit (Prim.translate (env.ofUInt d.radius) (env.ofUInt d.radius))
  let p := p.emit (Prim.rotate (needleRotation env d params))
  let p := p.emit (Prim.setPen d.needleColor (env.div (env.ofUInt d.radius) (env.ofRat 75)))
  let p := p.emit (Prim.drawLine 0 (env.toInt (env.sub (env.ofUInt d.radius) params.margin)) 0
    (env.toInt (env.neg (env.mul r (env.ofRat 2)))))
  let p := p.emit (Prim.setBrush d.backgroundColor)
  let p := p.emit Prim.setNoPen
  let p := p.emit (Prim.drawEllipse (env.toInt (env.neg r)) (env.toInt (env.neg r))
    (env.toInt (env.mul r (env.ofRat 2))) (env.toInt (env.mul r (env.ofRat 2))))
  let p := p.restore
  let p := p.save
  let cc := env.add (env.add (d.backgroundColor.redF env) (d.backgroundColor.greenF env))
    (d.backgroundColor.blueF env)
  let p := p.emit (Prim.translate (env.ofUInt d.radius) (env.ofUInt d.radius))
  let gradient : QRadialGradient R := ⟨env.ofRat 0, env.ofRat 0, r, r, r, []⟩
  let gradient :=
    if env.lt cc (env.ofRat 1) = true then
      (gradient.setColorAt 0 d.textColor).setColorAt 1 QColor.transparent
    else
      (gradient.setColorAt 1 d.textColor).setColorAt 0 QColor.transparent
  let p := p.emit (Prim.setBrushGradient gradient)
  let p := p.emit Prim.setNoPen
  let p := p.emit (Prim.drawEllipse (env.toInt (env.neg r)) (env.toInt (env.neg r))
    (env.toInt (env.mul r (env.ofRat 2))) (env.toInt (env.mul r (env.ofRat 2))))
  let p := p.restore
  { d := d, painter := p, params := params }

/-- The painter of `QPainter p( this )` after `setRenderHint` and
`translate( 1.0, 1.0 )`. -/
def paintStart {R : Type} (env : PaintEnv R) : QPainter R :=
  (({ font := env.font, saved := [], log := [] } : QPainter R).emit
    Prim.setRenderHintAntialiasing).emit (Prim.translate (env.ofRat 1) (env.ofRat 1))

/-- `Meter::paintEvent`; `params0` is the content of the local `params`, which
is declared without an initialiser. -/
def Meter.paintEvent {R : Type} (env : PaintEnv R) (params0 : DrawParams R)
    (d : MeterPrivate) : PaintCtx R :=
  let c : PaintCtx R := { d := d, painter := paintStart env, params := params0 }
  let c := MeterPrivate.drawBackground env c
  let c := MeterPrivate.drawRanges env c
  let c := MeterPrivate.drawScale env c
  let c := MeterPrivate.drawLabels env c
  MeterPrivate.drawNeedle env c

/-! ### Two interpretations of the numbers -/

/-- The digits of a number in fixed notation, from its absolute value scaled by
`10 ^ precision` and rounded: a stand-in for `QString::number( v, 'f', precision )`. -/
def fixedNotation (negative : Bool) (scaled : Nat) (precision : Nat) : String :=
  let whole := toString (scaled / 10 ^ precision)
  let frac := toString (scaled % 10 ^ precision)
  let body :=
    if precision = 0 then whole
    else whole ++ "." ++ "".pushn (Char.ofNat 48) (precision - frac.length) ++ frac
  if negative then "-" ++ body else body

/-- The exact interpretation: numbers are rationals, the operations are those
of the field `ℚ` (so `x / 0 = 0`, where a `double` gives an infinity or a NaN),
`==` and `<` are exact. The font is a fixed-width one, the trigonometric
functions are stand-ins. -/
def PaintEnv.exact : PaintEnv ℚ :=
  { ofRat := fun q => q
    ofUInt := fun n => (n : ℚ)
    ofInt := fun i => (i : ℚ)
    add := fun a b => a + b
    sub := fun a b => a - b
    mul := fun a b => a * b
    div := fun a b => a / b
    neg := fun a => -a
    lt := fun a b => decide (a < b)
    eq := fun a b => decide (a = b)
    toInt := truncToInt
    qSin := fun _ => 0
    qCos := fun _ => 1
    qDegreesToRadians := fun x => x * 355 / (113 * 180)
    font := ⟨"Sans", 12, false⟩
    textSize := fun f s => ((s.length : ℚ) * (f.pixelSize : ℚ) / 2, (f.pixelSize : ℚ))
    number := fun v precision =>
      fixedNotation (decide (v < 0))
        (Rat.floor (|v| * 10 ^ precision.toNat + 1 / 2)).toNat precision.toNat }

/-- The `double` nearest to a rational whose numerator and denominator are
themselves `double`s. -/
def doubleOfRat (q : ℚ) : Float := Float.ofInt q.num / Float.ofNat q.den

/-- Conversion of a `double` to `int`: truncation toward zero; a NaN or a
value outside the range of `int` gives `INT_MIN`, as the x86 conversion does. -/
def doubleToInt (x : Float) : Int :=
  let t := if x < 0 then x.ceil else x.floor
  if -2147483648 ≤ t ∧ t ≤ 2147483647 then
    if t < 0 then -((-t).toUInt64.toNat : Int) else (t.toUInt64.toNat : Int)
  else -2147483648

/-- The IEEE double precision interpretation, the arithmetic of the compiled
widget. The font is a fixed-width one. -/
def PaintEnv.double : PaintEnv Float :=
  { ofRat := doubleOfRat
    ofUInt := fun n => Float.ofNat n
    ofInt := fun i => Float.ofInt i
    add := fun a b => a + b
    sub := fun a b => a - b
    mul := fun a b => a * b
    div := fun a b => a / b
    neg := fun a => -a
    lt := fun a b => decide (a < b)
    eq := fun a b => a == b
    toInt := doubleToInt
    qSin := Float.sin
    qCos := Float.cos
    qDegreesToRadians := fun x => x * (3.14159265358979323846 / 180)
    font := ⟨"Sans", 12, false⟩
    textSize := fun f s =>
      (Float.ofNat s.length * Float.ofInt f.pixelSize / 2, Float.ofInt f.pixelSize)
    number := fun v precision =>
      fixedNotation (decide (v < 0))
        ((v.abs * Float.ofNat (10 ^ precision.toNat)).round.toUInt64.toNat) precision.toNat }

/-- A content of `DrawParams` standing for uninitialised memory. -/
def DrawParams.zero : DrawParams ℚ := ⟨⟨0, 0, 0, 0⟩, 0, 0, 0, 0, 0, 0⟩

/-! ### The primitives of each phase, as lists

The same five methods read as the sequence of painter calls they make, each a
function of the members and the environment alone. The theorems on painting
show that `Meter::paintEvent`, which threads one painter through the methods,
issues exactly these lists one after the other. -/

/-- The values of `params` once `drawBackground` and `drawRanges` have run. -/
def paintParams {R : Type} (env : PaintEnv R) (d : MeterPrivate) : DrawParams R :=
  { rect := ⟨env.ofRat 0, env.ofRat 0, env.ofUInt (d.radius * 2 % UINT_MOD),
      env.ofUInt (d.radius * 2 % UINT_MOD)⟩
    scaleDegree := env.ofUInt ((d.stopScaleAngle + UINT_MOD - d.startScaleAngle) % UINT_MOD)
    startScaleAngle := env.ofUInt d.startScaleAngle
    margin := env.div (env.ofUInt d.radius) (env.ofRat 20)
    gridLabelSize := env.div (env.ofUInt d.radius) (env.ofRat 10)
    scaleWidth := env.div (env.ofUInt d.radius) (env.add (env.ofRat 10) (env.ofRat 20))
    fontPixelSize := env.mul (env.div (env.ofUInt d.radius) (env.ofRat 10)) (env.ofRat (3 / 4)) }

/-- Background: the filled circle, between `save` and `restore`. -/
def backgroundPrims {R : Type} (env : PaintEnv R) (d : MeterPrivate) : List (Prim R) :=
  [Prim.save, Prim.setPenColor d.backgroundColor, Prim.setBrush d.backgroundColor,
    Prim.drawEllipseRect ⟨env.ofRat 0, env.ofRat 0, env.ofUInt (d.radius * 2 % UINT_MOD),
      env.ofUInt (d.radius * 2 % UINT_MOD)⟩,
    Prim.restore]

/-- One pen and one arc for each entry of the map, in iteration order. -/
def arcCalls {R : Type} (env : PaintEnv R) (ps : DrawParams R) (lo hi : ℚ) :
    RangeMap → List (Prim R)
  | [] => []
  | it :: rest =>
    Prim.setPen it.2.color ps.scaleWidth ::
    Prim.drawArc (ps.rect.shrink env (env.add ps.margin (env.div ps.scaleWidth (env.ofRat 2))))
      (env.toInt (env.mul (env.sub (env.ofRat (-90))
        (env.add ps.startScaleAngle (env.mul ps.scaleDegree
          (env.div (env.ofRat it.2.start) (env.sub (env.ofRat hi) (env.ofRat lo))))))
        (env.ofInt 16)))
      (env.toInt (env.mul (env.neg (env.sub
        (env.add ps.startScaleAngle (env.mul ps.scaleDegree
          (env.div (env.ofRat it.2.stop) (env.sub (env.ofRat hi) (env.ofRat lo)))))
        (env.add ps.startScaleAngle (env.mul ps.scaleDegree
          (env.div (env.ofRat it.2.start) (env.sub (env.ofRat hi) (env.ofRat lo)))))))
        (env.ofInt 16))) ::
    arcCalls env ps lo hi rest

/-- Threshold arcs: the arcs of all ranges, between `save` and `restore`. -/
def arcPrims {R : Type} (env : PaintEnv R) (d : MeterPrivate) : List (Prim R) :=
  Prim.save :: arcCalls env (paintParams env d) d.minValue d.maxValue d.ranges ++ [Prim.restore]

/-- A long tick, from the margin inward by the size of a grid label. -/
def longTick {R : Type} (env : PaintEnv R) (radius : Nat) (ps : DrawParams R) : Prim R :=
  Prim.drawLine 0 (env.toInt (env.sub (env.ofUInt radius) ps.margin)) 0
    (env.toInt (env.sub (env.sub (env.ofUInt radius) ps.gridLabelSize) ps.margin))

/-- A short tick, from the margin inward by the width of the scale. -/
def shortTick {R : Type} (env : PaintEnv R) (radius : Nat) (ps : DrawParams R) : Prim R :=
  Prim.drawLine 0 (env.toInt (env.sub (env.ofUInt radius) ps.margin)) 0
    (env.toInt (env.sub (env.sub (env.ofUInt radius) ps.scaleWidth) ps.margin))

/-- A long tick and a rotation by `deg` for every value of the loop variable. -/
def gridTickCalls {R : Type} (env : PaintEnv R) (radius : Nat) (ps : DrawParams R) (deg : R) :
    List Nat → List (Prim R)
  | [] => []
  | _ :: rest => longTick env radius ps :: Prim.rotate deg :: gridTickCalls env radius ps deg rest

/-- For every value `i` of the loop variable, a short tick unless the angle
`( start + deg ) + i * deg` is among the angles `drawn`, and a rotation by `deg`. -/
def shortTickCalls {R : Type} (env : PaintEnv R) (radius : Nat) (ps : DrawParams R) (deg : R)
    (drawn : List R) : List Nat → List (Prim R)
  | [] => []
  | i :: rest =>
    if (drawn.any (fun a => env.eq a (env.add (env.add ps.startScaleAngle deg)
        (env.mul (env.ofInt (i : Int)) deg)))) = false then
      shortTick env radius ps :: Prim.rotate deg :: shortTickCalls env radius ps deg drawn rest
    else Prim.rotate deg :: shortTickCalls env radius ps deg drawn rest

/-- The number of steps a scale of the given step has: the quotient converted to `int`. -/
def stepsOf {R : Type} (env : PaintEnv R) (lo hi step : ℚ) : Int :=
  env.toInt (env.div (env.sub (env.ofRat hi) (env.ofRat lo)) (env.ofRat step))

/-- The angles at which the grid loop has drawn a long tick. -/
def drawnAngles {R : Type} (env : PaintEnv R) (d : MeterPrivate) : List R :=
  if d.scaleGridStep > 0 then
    (paintParams env d).startScaleAngle ::
      (upTo (stepsOf env d.minValue d.maxValue d.scaleGridStep)).map (fun i =>
        env.add (paintParams env d).startScaleAngle
          (env.mul (env.ofInt (i : Int))
            (env.div (paintParams env d).scaleDegree
              (env.ofInt (stepsOf env d.minValue d.maxValue d.scaleGridStep)))))
  else [(paintParams env d).startScaleAngle, (paintParams env d).scaleDegree]

/-- Scale ticks: the arc of the scale and the long ticks, then the short ticks. -/
def tickPrims {R : Type} (env : PaintEnv R) (d : MeterPrivate) : List (Prim R) :=
  [Prim.save, Prim.setPenColor d.textColor,
    Prim.drawArc ((paintParams env d).rect.shrink env (paintParams env d).margin)
      (env.toInt (env.mul (env.sub (env.ofRat (-90)) (paintParams env d).startScaleAngle)
        (env.ofInt 16)))
      (env.toInt (env.mul (env.neg (paintParams env d).scaleDegree) (env.ofInt 16))),
    Prim.translate (env.ofUInt d.radius) (env.ofUInt d.radius),
    Prim.rotate (paintParams env d).startScaleAngle] ++
  (if d.scaleGridStep > 0 then
    gridTickCalls env d.radius (paintParams env d)
      (env.div (paintParams env d).scaleDegree
        (env.ofInt (stepsOf env d.minValue d.maxValue d.scaleGridStep)))
      (upTo (stepsOf env d.minValue d.maxValue d.scaleGridStep))
  else
    [longTick env d.radius (paintParams env d), Prim.rotate (paintParams env d).scaleDegree,
      longTick env d.radius (paintParams env d)]) ++
  [Prim.restore] ++
  (if d.scaleStep > 0 then
    [Prim.save, Prim.setPenColor d.textColor,
      Prim.translate (env.ofUInt d.radius) (env.ofUInt d.radius),
      Prim.rotate (paintParams env d).startScaleAngle,
      Prim.rotate (env.div (paintParams env d).scaleDegree
        (env.ofInt (stepsOf env d.minValue d.maxValue d.scaleStep)))] ++
    shortTickCalls env d.radius (paintParams env d)
      (env.div (paintParams env d).scaleDegree
        (env.ofInt (stepsOf env d.minValue d.maxValue d.scaleStep)))
      (drawnAngles env d)
      (upTo (stepsOf env d.minValue d.maxValue d.scaleStep - 2)) ++
    [Prim.restore]
  else [])

/-- One grid label for every value `i` of the loop variable: the text of the
running value `val`, placed around the angle `startRad + i * deltaRad`. -/
def gridLabelCalls {R : Type} (env : PaintEnv R) (radius : Nat) (ps : DrawParams R)
    (precision : Int) (step : ℚ) (f : QFont) (startRad deltaRad : R) :
    List Nat → R → List (Prim R)
  | [], _ => []
  | i :: rest, val =>
    Prim.drawText
      (env.toInt (env.sub
        (env.mul (env.sub (env.sub (env.ofUInt radius) ps.gridLabelSize)
            (env.mul ps.margin (env.ofInt 3)))
          (env.qSin (env.add startRad (env.mul (env.ofInt (i : Int)) deltaRad))))
        (env.div (env.textSize f (env.number val precision)).1 (env.ofInt 2))))
      (env.toInt (env.add
        (env.mul (env.sub (env.sub (env.ofUInt radius) ps.gridLabelSize)
            (env.mul ps.margin (env.ofInt 3)))
          (env.qCos (env.add startRad (env.mul (env.ofInt (i : Int)) deltaRad))))
        (env.div (env.textSize f (env.number val precision)).2 (env.ofInt 4))))
      (env.number val precision) ::
    gridLabelCalls env radius ps precision step f startRad deltaRad rest
      (env.add val (env.ofRat step))

/-- Labels: the grid labels, the units label, the label and the value, each
present under its condition and between `save` and `restore`. -/
def labelPrims {R : Type} (env : PaintEnv R) (d : MeterPrivate) : List (Prim R) :=
  (if d.scaleGridStep > 0 ∧ d.drawGridValues = true then
    [Prim.save, Prim.translate (env.ofUInt d.radius) (env.ofUInt d.radius),
      Prim.setPenColor d.textColor,
      Prim.setFont (env.font.setPixelSize (env.toInt (paintParams env d).fontPixelSize))] ++
    gridLabelCalls env d.radius (paintParams env d) d.scalePrecision d.scaleGridStep
      (env.font.setPixelSize (env.toInt (paintParams env d).fontPixelSize))
      (env.neg (env.qDegreesToRadians (env.ofUInt d.startScaleAngle)))
      (env.neg (env.qDegreesToRadians (env.div (paintParams env d).scaleDegree
        (env.ofInt (stepsOf env d.minValue d.maxValue d.scaleGridStep)))))
      (upTo (stepsOf env d.minValue d.maxValue d.scaleGridStep)) (env.ofRat d.minValue) ++
    [Prim.restore]
  else []) ++
  (if ¬ d.unitsLabel.isEmpty then
    [Prim.save,
      Prim.setFont (env.font.setPixelSize (env.toInt (paintParams env d).fontPixelSize)),
      Prim.setPenColor d.textColor,
      Prim.drawTextRect
        ⟨env.ofInt 0,
          env.add (env.mul (paintParams env d).margin (env.ofInt 3))
            (env.mul (paintParams env d).gridLabelSize (env.ofInt 3)),
          env.ofUInt (d.radius * 2 % UINT_MOD), env.ofUInt d.radius⟩ d.unitsLabel,
      Prim.restore]
  else []) ++
  (if ¬ d.label.isEmpty then
    [Prim.save,
      Prim.setFont (env.font.setPixelSize (env.toInt (paintParams env d).fontPixelSize)),
      Prim.setPenColor d.textColor,
      Prim.drawTextRect
        ⟨env.ofInt 0,
          env.sub (env.sub (env.ofUInt (d.radius * 2 % UINT_MOD))
            (env.mul (paintParams env d).margin (env.ofInt 3)))
            (env.mul (paintParams env d).gridLabelSize (env.ofInt 3)),
          env.ofUInt (d.radius * 2 % UINT_MOD), env.ofUInt d.radius⟩ d.label,
      Prim.restore]
  else []) ++
  (if d.drawValue = true then
    [Prim.save,
      Prim.setFont ((env.font.setPixelSize
        (env.toInt (env.mul (paintParams env d).fontPixelSize (env.ofInt 2)))).setBold true),
      Prim.setPenColor d.textColor,
      Prim.drawTextRect
        ⟨env.ofInt 0,
          env.sub (env.sub (env.ofUInt (d.radius * 2 % UINT_MOD)) (paintParams env d).margin)
            (env.mul (paintParams env d).gridLabelSize (env.ofInt 2)),
          env.ofUInt (d.radius * 2 % UINT_MOD), env.ofUInt d.radius⟩
        (env.number (env.ofRat d.value) d.valuePrecision),
      Prim.restore]
  else [])

/-- The colour stops of the gradient over the hub: from the text colour to
transparent for a dark background, the other way round for a light one. -/
def hubStops {R : Type} (env : PaintEnv R) (d : MeterPrivate) : List (ℚ × QColor) :=
  if env.lt (env.add (env.add (env.div (env.ofUInt d.backgroundColor.red) (env.ofRat 65535))
      (env.div (env.ofUInt d.backgroundColor.green) (env.ofRat 65535)))
      (env.div (env.ofUInt d.backgroundColor.blue) (env.ofRat 65535))) (env.ofRat 1) = true then
    [(0, d.textColor), (1, QColor.transparent)]
  else [(0, QColor.transparent), (1, d.textColor)]

/-- Needle: the needle, rotated by the start angle plus the scale span times
`value / ( maxValue - minValue )`, and its hub; then the gradient over the hub. -/
def needlePrims {R : Type} (env : PaintEnv R) (d : MeterPrivate) : List (Prim R) :=
  [Prim.save, Prim.translate (env.ofUInt d.radius) (env.ofUInt d.radius),
    Prim.rotate (env.add (paintParams env d).startScaleAngle
      (env.div (env.mul (paintParams env d).scaleDegree (env.ofRat d.value))
        (env.sub (env.ofRat d.maxValue) (env.ofRat d.minValue)))),
    Prim.setPen d.needleColor (env.div (env.ofUInt d.radius) (env.ofRat 75)),
    Prim.drawLine 0 (env.toInt (env.sub (env.ofUInt d.radius) (paintParams env d).margin)) 0
      (env.toInt (env.neg (env.mul (env.div (env.ofUInt d.radius) (env.ofRat 10)) (env.ofRat 2)))),
    Prim.setBrush d.backgroundColor, Prim.setNoPen,
    Prim.drawEllipse
      (env.toInt (env.neg (env.div (env.ofUInt d.radius) (env.ofRat 10))))
      (env.toInt (env.neg (env.div (env.ofUInt d.radius) (env.ofRat 10))))
      (env.toInt (env.mul (env.div (env.ofUInt d.radius) (env.ofRat 10)) (env.ofRat 2)))
      (env.toInt (env.mul (env.div (env.ofUInt d.radius) (env.ofRat 10)) (env.ofRat 2))),
    Prim.restore,
    Prim.save, Prim.translate (env.ofUInt d.radius) (env.ofUInt d.radius),
    Prim.setBrushGradient
      ⟨env.ofRat 0, env.ofRat 0, env.div (env.ofUInt d.radius) (env.ofRat 10),
        env.div (env.ofUInt d.radius) (env.ofRat 10),
        env.div (env.ofUInt d.radius) (env.ofRat 10), hubStops env d⟩,
    Prim.setNoPen,
    Prim.drawEllipse
      (env.toInt (env.neg (env.div (env.ofUInt d.radius) (env.ofRat 10))))
      (env.toInt (env.neg (env.div (env.ofUInt d.radius) (env.ofRat 10))))
      (env.toInt (env.mul (env.div (env.ofUInt d.radius) (env.ofRat 10)) (env.ofRat 2)))
      (env.toInt (env.mul (env.div (env.ofUInt d.radius) (env.ofRat 10)) (env.ofRat 2))),
    Prim.restore]

/-- The members that no `draw...` method reads replaced by other values. -/
def withUnpainted (d : MeterPrivate) (threshold : Int) (grid : QColor) : MeterPrivate :=
  { d with currentThreshold := threshold, gridColor := grid }

end MeterGauge

/-! ## Sequences of setter calls -/

namespace MeterGauge

/-- A call of one public setter of `Meter`, with its arguments. -/
inductive Call where
  | setMinValue (v : ℚ)
  | setMaxValue (v : ℚ)
  | setValue (v : ℚ)
  | setBackgroundColor (c : QColor)
  | setNeedleColor (c : QColor)
  | setTextColor (c : QColor)
  | setGridColor (c : QColor)
  | setLabel (l : String)
  | setUnitsLabel (l : String)
  | setRadius (r : Nat)
  | setStartScaleAngle (a : Nat)
  | setStopScaleAngle (a : Nat)
  | setScaleStep (s : ℚ)
  | setScaleGridStep (s : ℚ)
  | setDrawValue (on_ : Bool)
  | setDrawValuePrecision (p : Int)
  | setScaleLabelPrecision (p : Int)
  | setDrawGridValues (on_ : Bool)
  | setThresholdRange (start stop : ℚ) (thresholdIndex : Int) (color : QColor)
  deriving DecidableEq, Repr

/-- The members after one call. -/
def Call.apply (d : MeterPrivate) : Call → MeterPrivate
  | .setMinValue v => (Meter.setMinValue v d).1
  | .setMaxValue v => (Meter.setMaxValue v d).1
  | .setValue v => (Meter.setValue v d).1
  | .setBackgroundColor c => (Meter.setBackgroundColor c d).1
  | .setNeedleColor c => (Meter.setNeedleColor c d).1
  | .setTextColor c => (Meter.setTextColor c d).1
  | .setGridColor c => (Meter.setGridColor c d).1
  | .setLabel l => (Meter.setLabel l d).1
  | .setUnitsLabel l => (Meter.setUnitsLabel l d).1
  | .setRadius r => (Meter.setRadius r d).1
  | .setStartScaleAngle a => (Meter.setStartScaleAngle a d).1
  | .setStopScaleAngle a => (Meter.setStopScaleAngle a d).1
  | .setScaleStep s => (Meter.setScaleStep s d).1
  | .setScaleGridStep s => (Meter.setScaleGridStep s d).1
  | .setDrawValue b => (Meter.setDrawValue b d).1
  | .setDrawValuePrecision p => (Meter.setDrawValuePrecision p d).1
  | .setScaleLabelPrecision p => (Meter.setScaleLabelPrecision p d).1
  | .setDrawGridValues b => (Meter.setDrawGridValues b d).1
  | .setThresholdRange a b i c => (Meter.setThresholdRange a b i c d).1

/-- The members after a sequence of calls on a freshly constructed widget. -/
def run (calls : List Call) : MeterPrivate := calls.foldl Call.apply MeterPrivate.init

/-- The state invariant of the numeric properties. -/
def Invariant (d : MeterPrivate) : Prop :=
  d.minValue ≤ d.maxValue ∧ 0 ≤ d.scaleStep ∧ 0 ≤ d.scaleGridStep ∧
    0 ≤ d.valuePrecision ∧ 0 ≤ d.scalePrecision

/-- A value lies in the half-open interval `[start, stop)` of a range. -/
def RangeData.Contains (r : RangeData) (v : ℚ) : Prop := r.start ≤ v ∧ v < r.stop

instance (r : RangeData) (v : ℚ) : Decidable (r.Contains v) := by
  unfold RangeData.Contains; infer_instance

/-- Key order of the entries of a `QMultiMap`: ascending keys. -/
def KeysAscending (m : RangeMap) : Prop := m.Pairwise (fun a b => a.1 ≤ b.1)

/-- A fresh widget after `setMinValue( 50 )` and `setValue( 50 )`. -/
def needleAtMin : MeterPrivate := run [Call.setMinValue 50, Call.setValue 50]

/-- A fresh widget after two calls of `setThresholdRange` for index `1`. -/
def twoRanges : MeterPrivate :=
  run [Call.setThresholdRange 10 20 1 QColor.yellow, Call.setThresholdRange 30 40 1 QColor.yellow]

/-- A fresh widget after one call of `setThresholdRange` for index `1`. -/
def oneRange : MeterPrivate := run [Call.setThresholdRange 10 20 1 QColor.yellow]

/-- A fresh widget after `setRadius( 2147483647 )`. -/
def hugeRadius : MeterPrivate := run [Call.setRadius 2147483647]

/-- The widget configured by `examples/meter/main.cpp`. -/
def mainMeter : MeterPrivate :=
  run [Call.setMinValue 0, Call.setMaxValue 220, Call.setValue 90,
    Call.setBackgroundColor QColor.black, Call.setNeedleColor QColor.blue_,
    Call.setTextColor QColor.white, Call.setGridColor QColor.white,
    Call.setLabel "speed", Call.setUnitsLabel "km/h", Call.setRadius 200,
    Call.setStartScaleAngle 35, Call.setStopScaleAngle 325, Call.setScaleStep 2,
    Call.setScaleGridStep 10, Call.setDrawValue true, Call.setDrawGridValues true,
    Call.setDrawValuePrecision 0, Call.setScaleLabelPrecision 0,
    Call.setThresholdRange 0 110 0 QColor.transparent,
    Call.setThresholdRange 110 130 1 QColor.yellow,
    Call.setThresholdRange 130 (2201 / 10) 2 ⟨65535, 0, 0, 65535⟩]

/-- The rectangle of the background circle that `drawBackground` paints. -/
def backgroundRect (d : MeterPrivate) : QRectF ℚ :=
  (MeterPrivate.drawBackground PaintEnv.exact
    { d := d, painter := paintStart PaintEnv.exact, params := DrawParams.zero }).params.rect

/-- The rotation that `drawNeedle` applies during a paint of `d`, in exact
arithmetic. -/
def needleAngle (d : MeterPrivate) : ℚ :=
  needleRotation PaintEnv.exact d (Meter.paintEvent PaintEnv.exact DrawParams.zero d).params

end MeterGauge

/-! ## Theorems -/

namespace MeterGauge

/-! ### `setValue`: acceptance and rejection -/

/-- C1, as stated, fails: on a fresh widget (`minValue = 0 <= maxValue = 100`)
`setValue( 150 )` does not make `value()` equal to `maxValue`; it leaves the
value at `0`. -/
theorem setValue_does_not_clamp :
    MeterPrivate.init.minValue ≤ MeterPrivate.init.maxValue ∧
    (150 : ℚ) > MeterPrivate.init.maxValue ∧
    Meter.value (Meter.setValue 150 MeterPrivate.init).1 ≠ MeterPrivate.init.maxValue ∧
    Meter.value (Meter.setValue 150 MeterPrivate.init).1 = 0 := by
  decide

/-- C1, amended: after `setValue( v )`, `value()` equals `v` when
`minValue <= v <= maxValue`, and is the value stored before the call when
`v < minValue` or `v > maxValue`. -/
theorem setValue_value (d : MeterPrivate) (v : ℚ) :
    (d.minValue ≤ v ∧ v ≤ d.maxValue → Meter.value (Meter.setValue v d).1 = v) ∧
    (v < d.minValue ∨ v > d.maxValue →
      Meter.value (Meter.setValue v d).1 = Meter.value d) := by
  constructor
  · intro h
    have hg : v ≥ d.minValue ∧ v ≤ d.maxValue := ⟨h.1, h.2⟩
    unfold Meter.setValue
    rw [if_pos hg]
    simp only [MeterPrivate.thresholdFired, Meter.value]
    split <;> rfl
  · intro h
    have hg : ¬ (v ≥ d.minValue ∧ v ≤ d.maxValue) := by
      rintro ⟨h1, h2⟩
      rcases h with h | h
      · exact absurd h1 (not_le.mpr h)
      · exact absurd h2 (not_le.mpr h)
    unfold Meter.setValue
    rw [if_neg hg]

/-- Concrete instance: an accepted and a rejected input on a fresh widget. -/
theorem setValue_value_witness :
    Meter.value (Meter.setValue 40 MeterPrivate.init).1 = 40 ∧
    Meter.value (Meter.setValue 150 MeterPrivate.init).1 = Meter.value MeterPrivate.init :=
  ⟨(setValue_value MeterPrivate.init 40).1 (by decide),
   (setValue_value MeterPrivate.init 150).2 (Or.inr (by decide))⟩

/-- C9: `setValue( v )` with `v < minValue` or `v > maxValue` returns the
members unchanged and emits nothing; with `minValue <= v <= maxValue` it stores
`v` and emits `valueChanged( v )` once, right after the repaint request and
before a possible `thresholdFired`, whatever the value stored before. -/
theorem setValue_rejects_atomically (d : MeterPrivate) (v : ℚ) :
    (v < d.minValue ∨ v > d.maxValue → Meter.setValue v d = (d, [])) ∧
    (d.minValue ≤ v ∧ v ≤ d.maxValue →
      (Meter.setValue v d).1.value = v ∧
      (Meter.setValue v d).1 =
        { d with value := v, currentThreshold := (Meter.setValue v d).1.currentThreshold } ∧
      ∃ tail, (Meter.setValue v d).2 = Effect.update :: Effect.valueChanged v :: tail ∧
        (tail = [] ∨ tail = [Effect.thresholdFired (Meter.setValue v d).1.currentThreshold])) := by
  constructor
  · intro h
    have hg : ¬ (v ≥ d.minValue ∧ v ≤ d.maxValue) := by
      rintro ⟨h1, h2⟩
      rcases h with h | h
      · exact absurd h1 (not_le.mpr h)
      · exact absurd h2 (not_le.mpr h)
    unfold Meter.setValue
    rw [if_neg hg]
  · intro h
    have hg : v ≥ d.minValue ∧ v ≤ d.maxValue := ⟨h.1, h.2⟩
    unfold Meter.setValue
    rw [if_pos hg]
    simp only [MeterPrivate.thresholdFired]
    split
    · exact ⟨rfl, rfl, _, rfl, Or.inr rfl⟩
    · exact ⟨rfl, rfl, _, rfl, Or.inl rfl⟩

/-- Concrete instance: a rejected input, and the value
already stored given again. -/
theorem setValue_rejects_atomically_witness :
    Meter.setValue (-1) MeterPrivate.init = (MeterPrivate.init, []) ∧
    (Meter.setValue 0 MeterPrivate.init).1.value = 0 :=
  ⟨(setValue_rejects_atomically MeterPrivate.init (-1)).1 (Or.inl (by decide)),
   ((setValue_rejects_atomically MeterPrivate.init 0).2 (by decide)).1⟩

/-! ### `setMinValue` and `setMaxValue` -/

/-- C5: `setMinValue( v )` stores `v` as `minValue` and raises `maxValue` to
`max( old maxValue, v )`; `setMaxValue( v )` stores `v` as `maxValue` and lowers
`minValue` to `min( old minValue, v )`; every other member is unchanged. -/
theorem setMinValue_setMaxValue_clamp_opposite (d : MeterPrivate) (v : ℚ) :
    (Meter.minValue (Meter.setMinValue v d).1 = v ∧
      Meter.maxValue (Meter.setMinValue v d).1 = max d.maxValue v ∧
      (Meter.setMinValue v d).1 = { d with minValue := v, maxValue := max d.maxValue v }) ∧
    (Meter.maxValue (Meter.setMaxValue v d).1 = v ∧
      Meter.minValue (Meter.setMaxValue v d).1 = min d.minValue v ∧
      (Meter.setMaxValue v d).1 = { d with maxValue := v, minValue := min d.minValue v }) := by
  constructor
  · by_cases h : v > d.maxValue
    · have hm : max d.maxValue v = v := max_eq_right (le_of_lt h)
      simp [Meter.setMinValue, Meter.minValue, Meter.maxValue, h, hm]
    · have hm : max d.maxValue v = d.maxValue := max_eq_left (not_lt.mp h)
      simp [Meter.setMinValue, Meter.minValue, Meter.maxValue, h, hm]
  · by_cases h : d.minValue > v
    · have hm : min d.minValue v = v := min_eq_right (le_of_lt h)
      simp [Meter.setMaxValue, Meter.minValue, Meter.maxValue, h, hm]
    · have hm : min d.minValue v = d.minValue := min_eq_left (not_lt.mp h)
      simp [Meter.setMaxValue, Meter.minValue, Meter.maxValue, h, hm]

/-! ### The state invariant -/

/-- One call keeps the invariant. -/
theorem invariant_apply {d : MeterPrivate} (h : Invariant d) (c : Call) :
    Invariant (c.apply d) := by
  obtain ⟨h1, h2, h3, h4, h5⟩ := h
  cases c with
  | setMinValue v =>
    simp only [Call.apply, Meter.setMinValue, Invariant]
    split
    · exact ⟨le_refl _, h2, h3, h4, h5⟩
    · rename_i hn
      exact ⟨not_lt.mp hn, h2, h3, h4, h5⟩
  | setMaxValue v =>
    simp only [Call.apply, Meter.setMaxValue, Invariant]
    split
    · exact ⟨le_refl _, h2, h3, h4, h5⟩
    · rename_i hn
      exact ⟨not_lt.mp hn, h2, h3, h4, h5⟩
  | setValue v =>
    simp only [Call.apply, Meter.setValue, MeterPrivate.thresholdFired, Invariant]
    split
    · split <;> exact ⟨h1, h2, h3, h4, h5⟩
    · exact ⟨h1, h2, h3, h4, h5⟩
  | setScaleStep s =>
    simp only [Call.apply, Meter.setScaleStep, Invariant]
    split
    · rename_i hs
      exact ⟨h1, hs, h3, h4, h5⟩
    · exact ⟨h1, h2, h3, h4, h5⟩
  | setScaleGridStep s =>
    simp only [Call.apply, Meter.setScaleGridStep, Invariant]
    split
    · rename_i hs
      exact ⟨h1, h2, hs, h4, h5⟩
    · exact ⟨h1, h2, h3, h4, h5⟩
  | setDrawValuePrecision p =>
    simp only [Call.apply, Meter.setDrawValuePrecision, Invariant]
    split
    · rename_i hs
      exact ⟨h1, h2, h3, hs, h5⟩
    · exact ⟨h1, h2, h3, h4, h5⟩
  | setScaleLabelPrecision p =>
    simp only [Call.apply, Meter.setScaleLabelPrecision, Invariant]
    split
    · rename_i hs
      exact ⟨h1, h2, h3, h4, hs⟩
    · exact ⟨h1, h2, h3, h4, h5⟩
  | setThresholdRange a b i col =>
    simp only [Call.apply, Meter.setThresholdRange, MeterPrivate.thresholdFired, Invariant]
    split <;> exact ⟨h1, h2, h3, h4, h5⟩
  | setRadius r => exact ⟨h1, h2, h3, h4, h5⟩
  | setBackgroundColor c => exact ⟨h1, h2, h3, h4, h5⟩
  | setNeedleColor c => exact ⟨h1, h2, h3, h4, h5⟩
  | setTextColor c => exact ⟨h1, h2, h3, h4, h5⟩
  | setGridColor c => exact ⟨h1, h2, h3, h4, h5⟩
  | setLabel l => exact ⟨h1, h2, h3, h4, h5⟩
  | setUnitsLabel l => exact ⟨h1, h2, h3, h4, h5⟩
  | setStartScaleAngle a => exact ⟨h1, h2, h3, h4, h5⟩
  | setStopScaleAngle a => exact ⟨h1, h2, h3, h4, h5⟩
  | setDrawValue b => exact ⟨h1, h2, h3, h4, h5⟩
  | setDrawGridValues b => exact ⟨h1, h2, h3, h4, h5⟩

/-- A sequence of calls keeps the invariant. -/
theorem invariant_foldl (calls : List Call) :
    ∀ d : MeterPrivate, Invariant d → Invariant (calls.foldl Call.apply d) := by
  induction calls with
  | nil => intro d h; exact h
  | cons c cs ih => intro d h; exact ih _ (invariant_apply h c)

/-- The constructor establishes the invariant. -/
theorem invariant_init : Invariant MeterPrivate.init := by
  unfold Invariant; decide

/-- C8: every state reached from the constructor by setter calls has
`minValue <= maxValue`, `scaleStep >= 0`, `scaleGridStep >= 0`,
`drawValuePrecision >= 0` and `scaleLabelPrecision >= 0`; and a negative
argument to `setScaleStep`, `setScaleGridStep`, `setDrawValuePrecision` or
`setScaleLabelPrecision` leaves every member unchanged and requests nothing. -/
theorem setters_keep_invariant :
    (∀ calls : List Call,
      (run calls).minValue ≤ (run calls).maxValue ∧ 0 ≤ (run calls).scaleStep ∧
      0 ≤ (run calls).scaleGridStep ∧ 0 ≤ (run calls).valuePrecision ∧
      0 ≤ (run calls).scalePrecision) ∧
    (∀ (d : MeterPrivate) (s : ℚ), s < 0 → Meter.setScaleStep s d = (d, [])) ∧
    (∀ (d : MeterPrivate) (s : ℚ), s < 0 → Meter.setScaleGridStep s d = (d, [])) ∧
    (∀ (d : MeterPrivate) (p : Int), p < 0 → Meter.setDrawValuePrecision p d = (d, [])) ∧
    (∀ (d : MeterPrivate) (p : Int), p < 0 → Meter.setScaleLabelPrecision p d = (d, [])) := by
  refine ⟨fun calls => invariant_foldl calls _ invariant_init, ?_, ?_, ?_, ?_⟩
  · intro d s hs
    unfold Meter.setScaleStep
    rw [if_neg (not_le.mpr hs)]
  · intro d s hs
    unfold Meter.setScaleGridStep
    rw [if_neg (not_le.mpr hs)]
  · intro d p hp
    unfold Meter.setDrawValuePrecision
    rw [if_neg (not_le.mpr hp)]
  · intro d p hp
    unfold Meter.setScaleLabelPrecision
    rw [if_neg (not_le.mpr hp)]

/-- Concrete instance: a sequence that moves both bounds, and
the four guarded setters at `-1`. -/
theorem setters_keep_invariant_witness :
    (run [Call.setMinValue 200, Call.setMaxValue (-5), Call.setScaleStep (-1)]).minValue ≤
      (run [Call.setMinValue 200, Call.setMaxValue (-5), Call.setScaleStep (-1)]).maxValue ∧
    Meter.setScaleStep (-1) MeterPrivate.init = (MeterPrivate.init, []) ∧
    Meter.setScaleGridStep (-1) MeterPrivate.init = (MeterPrivate.init, []) ∧
    Meter.setDrawValuePrecision (-1) MeterPrivate.init = (MeterPrivate.init, []) ∧
    Meter.setScaleLabelPrecision (-1) MeterPrivate.init = (MeterPrivate.init, []) :=
  ⟨(setters_keep_invariant.1 _).1,
   setters_keep_invariant.2.1 MeterPrivate.init (-1) (by decide),
   setters_keep_invariant.2.2.1 MeterPrivate.init (-1) (by decide),
   setters_keep_invariant.2.2.2.1 MeterPrivate.init (-1) (by decide),
   setters_keep_invariant.2.2.2.2 MeterPrivate.init (-1) (by decide)⟩

/-! ### `setRadius` and the size hint -/

/-- For every `uint` argument, `setRadius` stores `max( r, 45 )`, and the two
size hints agree. -/
theorem setRadius_radius (d : MeterPrivate) (r : Nat) (hr : r < UINT_MOD) :
    Meter.radius (Meter.setRadius r d).1 = max r 45 ∧
    Meter.sizeHint (Meter.setRadius r d).1 = Meter.minimumSizeHint (Meter.setRadius r d).1 := by
  refine ⟨?_, rfl⟩
  simp only [Meter.setRadius, Meter.radius, Nat.mod_eq_of_lt hr]
  split
  · rw [max_eq_right (by omega)]
  · rw [max_eq_left (by omega)]

/-- Concrete instance: the largest radius whose doubling still fits 32 bits. -/
theorem setRadius_radius_witness :
    Meter.radius (Meter.setRadius 2147483647 MeterPrivate.init).1 = max 2147483647 45 :=
  (setRadius_radius MeterPrivate.init 2147483647 (by decide)).1

/-- For a radius up to `1073741822` the claim of C2 holds: `radius()` is
`max( r, 45 )`, both size hints are the square of side `2 * radius() + 2`, and
the background circle has diameter `2 * radius()`, so that, painted at offset
`(1, 1)`, it ends one pixel before the side of the square. -/
theorem setRadius_sizeHint_of_le (d : MeterPrivate) (r : Nat) (hr : r ≤ 1073741822) :
    Meter.radius (Meter.setRadius r d).1 = max r 45 ∧
    Meter.sizeHint (Meter.setRadius r d).1 = Meter.minimumSizeHint (Meter.setRadius r d).1 ∧
    Meter.sizeHint (Meter.setRadius r d).1 =
      (((2 * max r 45 + 2 : Nat) : Int), ((2 * max r 45 + 2 : Nat) : Int)) ∧
    backgroundRect (Meter.setRadius r d).1 =
      ⟨0, 0, ((2 * max r 45 : Nat) : ℚ), ((2 * max r 45 : Nat) : ℚ)⟩ := by
  have h0 : r % UINT_MOD = r := Nat.mod_eq_of_lt (by unfold UINT_MOD; omega)
  have hrad : (Meter.setRadius r d).1.radius = max r 45 := by
    simp only [Meter.setRadius, h0]
    split
    · rw [max_eq_right (by omega)]
    · rw [max_eq_left (by omega)]
  have hle : max r 45 ≤ 1073741822 := max_le hr (by omega)
  refine ⟨hrad, rfl, ?_, ?_⟩
  · have h1 : (max r 45 * 2 + 2) % UINT_MOD = 2 * max r 45 + 2 := by
      rw [Nat.mod_eq_of_lt (by unfold UINT_MOD; omega)]; omega
    have h2 : (2 * max r 45 + 2) % UINT_MOD = 2 * max r 45 + 2 :=
      Nat.mod_eq_of_lt (by unfold UINT_MOD; omega)
    have h3 : 2 * max r 45 + 2 < 2 ^ 31 := by omega
    simp only [Meter.sizeHint, Meter.minimumSizeHint, hrad, h1, toInt32, h2, if_pos h3]
  · have h1 : max r 45 * 2 % UINT_MOD = 2 * max r 45 := by
      rw [Nat.mod_eq_of_lt (by unfold UINT_MOD; omega)]; omega
    simp only [backgroundRect, MeterPrivate.drawBackground, hrad, h1]
    rfl

/-- Concrete instance: the radius of `examples/meter/main.cpp`. -/
theorem setRadius_sizeHint_of_le_witness :
    Meter.sizeHint (Meter.setRadius 200 MeterPrivate.init).1 = (402, 402) :=
  (setRadius_sizeHint_of_le MeterPrivate.init 200 (by decide)).2.2.1

/-- C2 at `r = 2147483647`: `setRadius` stores the radius, `2 * radius + 2`
wraps to `0` in `uint`, so both size hints are the empty square `(0, 0)`, while
the background circle is painted with diameter `4294967294`. -/
theorem sizeHint_wraps_at_huge_radius :
    Meter.radius hugeRadius = 2147483647 ∧
    Meter.sizeHint hugeRadius = (0, 0) ∧
    Meter.minimumSizeHint hugeRadius = (0, 0) ∧
    backgroundRect hugeRadius = ⟨0, 0, 4294967294, 4294967294⟩ := by
  refine ⟨by decide, by decide, by decide, ?_⟩
  simp [backgroundRect, MeterPrivate.drawBackground, hugeRadius, run, Call.apply,
    Meter.setRadius, UINT_MOD, PaintEnv.exact]

/-! ### The needle -/

/-- The rotation of the needle in terms of the members: the scale span times
`value / ( maxValue - minValue )`, added to the start angle. `minValue` is not
subtracted from `value`. -/
theorem needleAngle_eq (d : MeterPrivate) :
    needleAngle d = (d.startScaleAngle : ℚ) +
      (((d.stopScaleAngle + UINT_MOD - d.startScaleAngle) % UINT_MOD : Nat) : ℚ) * d.value /
        (d.maxValue - d.minValue) := rfl

/-- When `minValue = 0` the needle is at `startScaleAngle` for `value = minValue`
and at `stopScaleAngle` for `value = maxValue`. -/
theorem needleAngle_of_minValue_zero (d : MeterPrivate) (h0 : d.minValue = 0)
    (hlt : d.minValue < d.maxValue) (hang : d.startScaleAngle ≤ d.stopScaleAngle)
    (hstop : d.stopScaleAngle < UINT_MOD) :
    (d.value = d.minValue → needleAngle d = (d.startScaleAngle : ℚ)) ∧
    (d.value = d.maxValue → needleAngle d = (d.stopScaleAngle : ℚ)) := by
  have hmod : (d.stopScaleAngle + UINT_MOD - d.startScaleAngle) % UINT_MOD
      = d.stopScaleAngle - d.startScaleAngle := by
    have : d.stopScaleAngle + UINT_MOD - d.startScaleAngle
        = (d.stopScaleAngle - d.startScaleAngle) + UINT_MOD := by omega
    rw [this, Nat.add_mod_right, Nat.mod_eq_of_lt (by omega)]
  have hmax : d.maxValue ≠ 0 := by
    rw [h0] at hlt; exact ne_of_gt hlt
  constructor
  · intro hv
    rw [needleAngle_eq, hv, h0]
    simp
  · intro hv
    rw [needleAngle_eq, hv, h0, hmod, Nat.cast_sub hang]
    field_simp

/-- Concrete instance: a fresh widget, whose value is `0`. -/
theorem needleAngle_of_minValue_zero_witness :
    needleAngle MeterPrivate.init = ((MeterPrivate.init).startScaleAngle : ℚ) :=
  (needleAngle_of_minValue_zero MeterPrivate.init (by decide) (by decide) (by decide)
    (by decide)).1 (by decide)

/-- C7 at `minValue = 50`, `maxValue = 100`, `value = 50`, angles `30` and
`330`: the needle is rotated by `330`, the stop angle, although the value is
`minValue`. -/
theorem needle_at_minValue_points_at_stop :
    needleAtMin.minValue = 50 ∧ needleAtMin.maxValue = 100 ∧
    needleAtMin.value = needleAtMin.minValue ∧
    needleAtMin.startScaleAngle = 30 ∧ needleAtMin.stopScaleAngle = 330 ∧
    needleAngle needleAtMin = 330 ∧
    needleAngle needleAtMin ≠ (needleAtMin.startScaleAngle : ℚ) := by
  refine ⟨by decide, by decide, by decide, by decide, by decide, ?_, ?_⟩
  · rw [needleAngle_eq]; norm_num [needleAtMin, run, Call.apply, Meter.setMinValue,
      Meter.setValue, MeterPrivate.thresholdFired, thresholdFiredLoop, MeterPrivate.init, UINT_MOD]
  · rw [needleAngle_eq]; norm_num [needleAtMin, run, Call.apply, Meter.setMinValue,
      Meter.setValue, MeterPrivate.thresholdFired, thresholdFiredLoop, MeterPrivate.init, UINT_MOD]

/-! ### Threshold ranges -/

/-- When no entry contains the value, the loop reports nothing and keeps the
current threshold. -/
theorem thresholdFiredLoop_none (v : ℚ) (cur : Int) :
    ∀ m : RangeMap, (∀ e ∈ m, ¬ e.2.Contains v) → thresholdFiredLoop v m cur = (false, cur) := by
  intro m
  induction m with
  | nil => intro _; rfl
  | cons e rest ih =>
    intro h
    have he : ¬ (v ≥ e.2.start ∧ v < e.2.stop) := h e (List.mem_cons_self _ _)
    rw [thresholdFiredLoop, if_neg he]
    exact ih (fun x hx => h x (List.mem_cons_of_mem _ hx))

/-- The loop stops at the first entry, in iteration order, that contains the value. -/
theorem thresholdFiredLoop_first (v : ℚ) (cur : Int) (e : Int × RangeData) (post : RangeMap) :
    ∀ pre : RangeMap, (∀ x ∈ pre, ¬ x.2.Contains v) → e.2.Contains v →
      thresholdFiredLoop v (pre ++ e :: post) cur = (decide (cur ≠ e.1), e.1) := by
  intro pre
  induction pre with
  | nil =>
    intro _ he
    have he2 : v ≥ e.2.start ∧ v < e.2.stop := he
    rw [List.nil_append, thresholdFiredLoop, if_pos he2]
  | cons x xs ih =>
    intro h he
    have hx : ¬ (v ≥ x.2.start ∧ v < x.2.stop) := h x (List.mem_cons_self _ _)
    rw [List.cons_append, thresholdFiredLoop, if_neg hx]
    exact ih (fun y hy => h y (List.mem_cons_of_mem _ hy)) he

/-- Whatever the loop returns, a change of the current threshold comes from an
entry of the map that contains the value. -/
theorem thresholdFiredLoop_changed (v : ℚ) (cur : Int) :
    ∀ m : RangeMap, (thresholdFiredLoop v m cur).2 ≠ cur →
      ∃ e ∈ m, e.1 = (thresholdFiredLoop v m cur).2 ∧ e.2.Contains v ∧
        (thresholdFiredLoop v m cur).1 = true := by
  intro m
  induction m with
  | nil => intro h; exact absurd rfl h
  | cons e rest ih =>
    intro h
    by_cases he : v ≥ e.2.start ∧ v < e.2.stop
    · rw [thresholdFiredLoop, if_pos he] at h ⊢
      refine ⟨e, List.mem_cons_self _ _, rfl, he, ?_⟩
      simp only [decide_eq_true_eq]
      exact fun hc => h hc.symm
    · rw [thresholdFiredLoop, if_neg he] at h ⊢
      obtain ⟨x, hx, h1, h2, h3⟩ := ih h
      exact ⟨x, List.mem_cons_of_mem _ hx, h1, h2, h3⟩

/-- The loop reports `true` only when it changed the current threshold. -/
theorem thresholdFiredLoop_true (v : ℚ) (cur : Int) :
    ∀ m : RangeMap, (thresholdFiredLoop v m cur).1 = true →
      (thresholdFiredLoop v m cur).2 ≠ cur := by
  intro m
  induction m with
  | nil => intro h; simp [thresholdFiredLoop] at h
  | cons e rest ih =>
    intro h
    by_cases he : v ≥ e.2.start ∧ v < e.2.stop
    · rw [thresholdFiredLoop, if_pos he] at h ⊢
      simp only [decide_eq_true_eq] at h
      exact fun hc => h hc.symm
    · rw [thresholdFiredLoop, if_neg he] at h ⊢
      exact ih h

/-- The entries after `QMultiMap::insert`: the new one and the old ones. -/
theorem RangeMap.mem_insert (k : Int) (r : RangeData) (x : Int × RangeData) :
    ∀ m : RangeMap, x ∈ RangeMap.insert k r m ↔ x = (k, r) ∨ x ∈ m := by
  intro m
  induction m with
  | nil => simp [RangeMap.insert]
  | cons e rest ih =>
    unfold RangeMap.insert
    split
    · simp
    · simp only [List.mem_cons, ih]
      tauto

/-- The insertion of `QMultiMap` keeps the keys ascending. -/
theorem keysAscending_insert (k : Int) (r : RangeData) :
    ∀ m : RangeMap, KeysAscending m → KeysAscending (RangeMap.insert k r m) := by
  intro m
  induction m with
  | nil => intro _; simp [RangeMap.insert, KeysAscending]
  | cons e rest ih =>
    intro h
    unfold KeysAscending at h ih ⊢
    rw [List.pairwise_cons] at h
    unfold RangeMap.insert
    split
    · rename_i hk
      rw [List.pairwise_cons, List.pairwise_cons]
      refine ⟨?_, h.1, h.2⟩
      intro x hx
      rcases List.mem_cons.mp hx with hx | hx
      · rw [hx]; exact hk
      · exact le_trans hk (h.1 x hx)
    · rename_i hk
      rw [List.pairwise_cons]
      refine ⟨?_, ih h.2⟩
      intro x hx
      rcases (RangeMap.mem_insert k r x rest).mp hx with hx | hx
      · rw [hx]; exact le_of_lt (not_le.mp hk)
      · exact h.1 x hx

/-- One call keeps the keys of the map ascending. -/
theorem keysAscending_apply {d : MeterPrivate} (h : KeysAscending d.ranges) (c : Call) :
    KeysAscending (c.apply d).ranges := by
  cases c with
  | setMinValue v => simp only [Call.apply, Meter.setMinValue]; split <;> exact h
  | setMaxValue v => simp only [Call.apply, Meter.setMaxValue]; split <;> exact h
  | setValue v =>
    simp only [Call.apply, Meter.setValue, MeterPrivate.thresholdFired]
    split
    · split <;> exact h
    · exact h
  | setScaleStep s => simp only [Call.apply, Meter.setScaleStep]; split <;> exact h
  | setScaleGridStep s => simp only [Call.apply, Meter.setScaleGridStep]; split <;> exact h
  | setDrawValuePrecision p =>
    simp only [Call.apply, Meter.setDrawValuePrecision]; split <;> exact h
  | setScaleLabelPrecision p =>
    simp only [Call.apply, Meter.setScaleLabelPrecision]; split <;> exact h
  | setThresholdRange a b i col =>
    simp only [Call.apply, Meter.setThresholdRange, MeterPrivate.thresholdFired]
    split <;> exact keysAscending_insert i _ _ h
  | setRadius r => exact h
  | setBackgroundColor c => exact h
  | setNeedleColor c => exact h
  | setTextColor c => exact h
  | setGridColor c => exact h
  | setLabel l => exact h
  | setUnitsLabel l => exact h
  | setStartScaleAngle a => exact h
  | setStopScaleAngle a => exact h
  | setDrawValue b => exact h
  | setDrawGridValues b => exact h

/-- Every state reached from the constructor has the keys of `ranges` ascending. -/
theorem run_keysAscending (calls : List Call) : KeysAscending (run calls).ranges := by
  have key : ∀ (cs : List Call) (d : MeterPrivate), KeysAscending d.ranges →
      KeysAscending (cs.foldl Call.apply d).ranges := by
    intro cs
    induction cs with
    | nil => intro d h; exact h
    | cons c cs ih => intro d h; exact ih _ (keysAscending_apply h c)
  exact key calls _ (by simp [MeterPrivate.init, KeysAscending])

/-- What an accepted `setValue( v )` returns, in terms of the loop of
`thresholdFired`. -/
theorem setValue_accepted (d : MeterPrivate) (v : ℚ) (hv : d.minValue ≤ v ∧ v ≤ d.maxValue) :
    (Meter.setValue v d).1.currentThreshold
      = (thresholdFiredLoop v d.ranges d.currentThreshold).2 ∧
    (Meter.setValue v d).2 = Effect.update :: Effect.valueChanged v ::
      (if (thresholdFiredLoop v d.ranges d.currentThreshold).1 = true
        then [Effect.thresholdFired (thresholdFiredLoop v d.ranges d.currentThreshold).2]
        else []) := by
  have hg : v ≥ d.minValue ∧ v ≤ d.maxValue := ⟨hv.1, hv.2⟩
  unfold Meter.setValue
  rw [if_pos hg]
  simp only [MeterPrivate.thresholdFired]
  split <;> exact ⟨rfl, rfl⟩

/-- C3: for a map with ascending keys and `minValue <= v <= maxValue`,
`setValue( v )` selects the first entry in iteration order whose half-open
interval `[start, stop)` contains `v`; its index is the least index of all
entries containing `v`; the current threshold becomes that index, and
`thresholdFired( k )` is emitted exactly for that index and only when it
differs from the current threshold. When no entry contains `v`, the current
threshold is unchanged and no `thresholdFired` is emitted. -/
theorem setValue_selects_first_range (d : MeterPrivate) (v : ℚ)
    (hs : KeysAscending d.ranges) (hv : d.minValue ≤ v ∧ v ≤ d.maxValue) :
    ((∀ e ∈ d.ranges, ¬ (e.2.start ≤ v ∧ v < e.2.stop)) →
      (Meter.setValue v d).1.currentThreshold = d.currentThreshold ∧
      ∀ k, Effect.thresholdFired k ∉ (Meter.setValue v d).2) ∧
    (∀ (pre : RangeMap) (e : Int × RangeData) (post : RangeMap),
      d.ranges = pre ++ e :: post →
      (∀ x ∈ pre, ¬ (x.2.start ≤ v ∧ v < x.2.stop)) →
      (e.2.start ≤ v ∧ v < e.2.stop) →
        (∀ x ∈ d.ranges, (x.2.start ≤ v ∧ v < x.2.stop) → e.1 ≤ x.1) ∧
        (Meter.setValue v d).1.currentThreshold = e.1 ∧
        (∀ k, Effect.thresholdFired k ∈ (Meter.setValue v d).2 ↔
          (k = e.1 ∧ e.1 ≠ d.currentThreshold))) := by
  obtain ⟨hcur, heff⟩ := setValue_accepted d v hv
  constructor
  · intro hnone
    have hl := thresholdFiredLoop_none v d.currentThreshold d.ranges hnone
    rw [hl] at hcur heff
    refine ⟨hcur, ?_⟩
    intro k hk
    rw [heff] at hk
    simp at hk
  · intro pre e post hsplit hpre he
    have hl := thresholdFiredLoop_first v d.currentThreshold e post pre hpre he
    rw [← hsplit] at hl
    rw [hl] at hcur heff
    refine ⟨?_, hcur, ?_⟩
    · intro x hx hxc
      rw [hsplit] at hx hs
      rcases List.mem_append.mp hx with hx | hx
      · exact absurd hxc (hpre x hx)
      · rcases List.mem_cons.mp hx with hx | hx
        · rw [hx]
        · unfold KeysAscending at hs
          rw [List.pairwise_append] at hs
          exact (List.pairwise_cons.mp hs.2.1).1 x hx
    · intro k
      rw [heff]
      by_cases hc : d.currentThreshold = e.1
      · simp [hc]
      · have hc2 : e.1 ≠ d.currentThreshold := fun h => hc h.symm
        simp [hc, hc2]

/-- Concrete instance: on the widget of
`examples/meter/main.cpp`, `setValue( 110 )` passes over the range `[0, 110)` of
index `0` and selects index `1`. -/
theorem setValue_selects_first_range_witness :
    (Meter.setValue 110 mainMeter).1.currentThreshold = 1 ∧
    (Effect.thresholdFired 1 ∈ (Meter.setValue 110 mainMeter).2 ↔
      ((1 : Int) = 1 ∧ (1 : Int) ≠ mainMeter.currentThreshold)) :=
  ⟨((setValue_selects_first_range mainMeter 110 (run_keysAscending _) (by decide)).2
      [(0, ⟨0, 110, QColor.transparent⟩)] (1, ⟨110, 130, QColor.yellow⟩)
      [(2, ⟨130, 2201 / 10, ⟨65535, 0, 0, 65535⟩⟩)] rfl (by decide) (by decide)).2.1,
   ((setValue_selects_first_range mainMeter 110 (run_keysAscending _) (by decide)).2
      [(0, ⟨0, 110, QColor.transparent⟩)] (1, ⟨110, 130, QColor.yellow⟩)
      [(2, ⟨130, 2201 / 10, ⟨65535, 0, 0, 65535⟩⟩)] rfl (by decide) (by decide)).2.2 1⟩

/-- C4, as stated, fails: after `setThresholdRange( 10, 20, 1 )` and then
`setThresholdRange( 30, 40, 1 )` on a fresh widget, the accepted
`setValue( 15 )` makes `1` the current threshold (it was `0`) and emits
`thresholdFired( 1 )`, although `15` is not in `[30, 40)`: both ranges of index
`1` are in the map. -/
theorem setThresholdRange_keeps_earlier_range :
    twoRanges = (Meter.setThresholdRange 30 40 1 QColor.yellow
      (Meter.setThresholdRange 10 20 1 QColor.yellow MeterPrivate.init).1).1 ∧
    twoRanges.ranges = [(1, ⟨30, 40, QColor.yellow⟩), (1, ⟨10, 20, QColor.yellow⟩)] ∧
    (twoRanges.minValue ≤ 15 ∧ (15 : ℚ) ≤ twoRanges.maxValue) ∧
    twoRanges.currentThreshold = 0 ∧
    (Meter.setValue 15 twoRanges).1.currentThreshold = 1 ∧
    Effect.thresholdFired 1 ∈ (Meter.setValue 15 twoRanges).2 ∧
    ¬ ((30 : ℚ) ≤ 15 ∧ (15 : ℚ) < 40) := by
  decide

/-- C4, amended: `setThresholdRange( start, stop, i, color )` adds the range
`[start, stop)` to the map under index `i` and keeps every earlier entry; a
later accepted `setValue( v )` that changes the current threshold to `i`, or
emits `thresholdFired( i )`, has `start <= v < stop` or `v` in an earlier range
of index `i`; when index `i` had no earlier range, it has `start <= v < stop`. -/
theorem setThresholdRange_adds_range (d : MeterPrivate) (start stop : ℚ) (i : Int)
    (color : QColor) (v : ℚ) :
    (Meter.setThresholdRange start stop i color d).1.ranges
      = RangeMap.insert i ⟨start, stop, color⟩ d.ranges ∧
    (∀ x, x ∈ (Meter.setThresholdRange start stop i color d).1.ranges ↔
      x = (i, ⟨start, stop, color⟩) ∨ x ∈ d.ranges) ∧
    (((Meter.setThresholdRange start stop i color d).1.minValue ≤ v ∧
        v ≤ (Meter.setThresholdRange start stop i color d).1.maxValue) →
      (((Meter.setThresholdRange start stop i color d).1.currentThreshold ≠ i ∧
          (Meter.setValue v (Meter.setThresholdRange start stop i color d).1).1.currentThreshold
            = i) ∨
        Effect.thresholdFired i ∈
          (Meter.setValue v (Meter.setThresholdRange start stop i color d).1).2) →
      ((start ≤ v ∧ v < stop) ∨
        ∃ e ∈ d.ranges, e.1 = i ∧ e.2.start ≤ v ∧ v < e.2.stop) ∧
      ((∀ e ∈ d.ranges, e.1 ≠ i) → (start ≤ v ∧ v < stop))) := by
  have hr : (Meter.setThresholdRange start stop i color d).1.ranges
      = RangeMap.insert i ⟨start, stop, color⟩ d.ranges := by
    simp only [Meter.setThresholdRange, MeterPrivate.thresholdFired]
    split <;> rfl
  refine ⟨hr, ?_, ?_⟩
  · intro x
    rw [hr]
    exact RangeMap.mem_insert i _ x d.ranges
  · intro hv hsel
    generalize Meter.setThresholdRange start stop i color d = r1 at hr hv hsel
    obtain ⟨hcur, heff⟩ := setValue_accepted r1.1 v hv
    have hchg : (thresholdFiredLoop v r1.1.ranges r1.1.currentThreshold).2 = i ∧
        (thresholdFiredLoop v r1.1.ranges r1.1.currentThreshold).2 ≠ r1.1.currentThreshold := by
      rcases hsel with ⟨h1, h2⟩ | h
      · rw [hcur] at h2
        exact ⟨h2, fun hc => h1 (hc.symm.trans h2)⟩
      · rw [heff] at h
        by_cases hb : (thresholdFiredLoop v r1.1.ranges r1.1.currentThreshold).1 = true
        · rw [if_pos hb] at h
          simp at h
          exact ⟨h.symm, thresholdFiredLoop_true v _ _ hb⟩
        · rw [if_neg hb] at h
          simp at h
    obtain ⟨e, he, hk, hc, _⟩ := thresholdFiredLoop_changed v _ _ hchg.2
    rw [hr] at he
    have hei : e.1 = i := hk.trans hchg.1
    have main : (start ≤ v ∧ v < stop) ∨
        ∃ e ∈ d.ranges, e.1 = i ∧ e.2.start ≤ v ∧ v < e.2.stop := by
      rcases (RangeMap.mem_insert i _ e d.ranges).mp he with h | h
      · left
        rw [h] at hc
        exact hc
      · right
        exact ⟨e, h, hei, hc.1, hc.2⟩
    refine ⟨main, ?_⟩
    intro hno
    rcases main with h | ⟨x, hx, hxi, _⟩
    · exact h
    · exact absurd hxi (hno x hx)

/-- Concrete instance: on a fresh widget, after `setThresholdRange( 10, 20, 1 )`
the accepted `setValue( 15 )` changes the current threshold from `0` to `1`,
and `15` is in `[10, 20)`. -/
theorem setThresholdRange_adds_range_witness :
    oneRange.currentThreshold ≠ 1 ∧
    (Meter.setValue 15 oneRange).1.currentThreshold = 1 ∧
    ((10 : ℚ) ≤ 15 ∧ (15 : ℚ) < 20) :=
  ⟨by decide, by decide,
   ((setThresholdRange_adds_range MeterPrivate.init 10 20 1 QColor.yellow 15).2.2
    (by decide) (Or.inl (by decide))).2 (by decide)⟩

/-! ### Painting -/

/-- The loop of `drawRanges` issues a pen and an arc for each entry, in order,
and leaves the font and the saved fonts of the painter alone. -/
theorem foldl_drawRangesStep {R : Type} (env : PaintEnv R) (d : MeterPrivate)
    (ps : DrawParams R) :
    ∀ (l : RangeMap) (p : QPainter R),
      l.foldl (drawRangesStep env d ps
          (ps.rect.shrink env (env.add ps.margin (env.div ps.scaleWidth (env.ofRat 2))))) p
        = ⟨p.font, p.saved, p.log ++ arcCalls env ps d.minValue d.maxValue l⟩ := by
  intro l
  induction l with
  | nil => intro p; simp [arcCalls]
  | cons it rest ih =>
    intro p
    rw [List.foldl_cons, ih]
    simp [drawRangesStep, arcCalls, QPainter.emit]

/-- The first loop of `drawScale` issues a long tick and a rotation for each
value of the loop variable and appends the angle of each to `alreadyDrawn`. -/
theorem foldl_drawScaleGridStep {R : Type} (env : PaintEnv R) (d : MeterPrivate)
    (ps : DrawParams R) (deg : R) :
    ∀ (l : List Nat) (p : QPainter R) (drawn : List R),
      l.foldl (drawScaleGridStep env d ps deg) (p, drawn)
        = (⟨p.font, p.saved, p.log ++ gridTickCalls env d.radius ps deg l⟩,
            drawn ++ l.map (fun i =>
              env.add ps.startScaleAngle (env.mul (env.ofInt (i : Int)) deg))) := by
  intro l
  induction l with
  | nil => intro p drawn; simp [gridTickCalls]
  | cons i rest ih =>
    intro p drawn
    rw [List.foldl_cons]
    simp only [drawScaleGridStep, QPainter.emit]
    rw [ih]
    simp [gridTickCalls, gridTick, longTick]

/-- The second loop of `drawScale` issues, for each value of the loop variable,
a short tick unless its angle was drawn already, and a rotation. -/
theorem foldl_drawScaleStep {R : Type} (env : PaintEnv R) (d : MeterPrivate)
    (ps : DrawParams R) (deg : R) (drawn : List R) :
    ∀ (l : List Nat) (p : QPainter R),
      l.foldl (drawScaleStep env d ps deg drawn) p
        = ⟨p.font, p.saved, p.log ++ shortTickCalls env d.radius ps deg drawn l⟩ := by
  intro l
  induction l with
  | nil => intro p; simp [shortTickCalls]
  | cons i rest ih =>
    intro p
    rw [List.foldl_cons, ih]
    by_cases h : (drawn.any (fun a => env.eq a (env.add (env.add ps.startScaleAngle deg)
        (env.mul (env.ofInt (i : Int)) deg)))) = false
    · simp [drawScaleStep, shortTickCalls, h, QPainter.emit, scaleTick, shortTick]
    · simp [drawScaleStep, shortTickCalls, h, QPainter.emit]

/-- The loop of `drawLabels` issues one text for each value of the loop
variable, the running value growing by the grid step. -/
theorem foldl_drawLabelsStep {R : Type} (env : PaintEnv R) (d : MeterPrivate)
    (ps : DrawParams R) (f : QFont) (startRad deltaRad : R) :
    ∀ (l : List Nat) (p : QPainter R) (val : R),
      (l.foldl (drawLabelsStep env d ps f startRad deltaRad) (p, val)).1
        = ⟨p.font, p.saved, p.log ++ gridLabelCalls env d.radius ps d.scalePrecision
            d.scaleGridStep f startRad deltaRad l val⟩ := by
  intro l
  induction l with
  | nil => intro p val; simp [gridLabelCalls]
  | cons i rest ih =>
    intro p val
    rw [List.foldl_cons]
    simp only [drawLabelsStep, QPainter.emit]
    rw [ih]
    simp [gridLabelCalls]

/-- `drawBackground` then `drawRanges`: the background and the arcs are issued
after what the painter had, the font and the saved fonts are as before, and
`params` is assigned entirely from the members. -/
theorem drawRanges_drawBackground_eq {R : Type} (env : PaintEnv R) (d : MeterPrivate)
    (p : QPainter R) (params0 : DrawParams R) :
    MeterPrivate.drawRanges env (MeterPrivate.drawBackground env ⟨d, p, params0⟩)
      = ⟨d, ⟨p.font, p.saved, p.log ++ backgroundPrims env d ++ arcPrims env d⟩,
          paintParams env d⟩ := by
  have e : MeterPrivate.drawRanges env (MeterPrivate.drawBackground env ⟨d, p, params0⟩)
      = ⟨d, (d.ranges.foldl (drawRangesStep env d (paintParams env d)
            ((paintParams env d).rect.shrink env (env.add (paintParams env d).margin
              (env.div (paintParams env d).scaleWidth (env.ofRat 2)))))
          (MeterPrivate.drawBackground env ⟨d, p, params0⟩).painter.save).restore,
          paintParams env d⟩ := rfl
  rw [e, foldl_drawRangesStep]
  simp [MeterPrivate.drawBackground, QPainter.save, QPainter.restore, QPainter.emit,
    backgroundPrims, arcPrims]

/-- `drawScale` issues the scale ticks after what the painter had. -/
theorem drawScale_eq {R : Type} (env : PaintEnv R) (d : MeterPrivate) (p : QPainter R) :
    MeterPrivate.drawScale env ⟨d, p, paintParams env d⟩
      = ⟨d, ⟨p.font, p.saved, p.log ++ tickPrims env d⟩, paintParams env d⟩ := by
  by_cases hg : d.scaleGridStep > 0 <;> by_cases hs : d.scaleStep > 0 <;>
    simp [MeterPrivate.drawScale, tickPrims, drawnAngles, stepsOf, hg, hs,
      foldl_drawScaleGridStep, foldl_drawScaleStep, QPainter.save, QPainter.restore,
      QPainter.emit, gridTick, longTick]

/-- `drawNeedle` issues the needle after what the painter had. -/
theorem drawNeedle_eq {R : Type} (env : PaintEnv R) (d : MeterPrivate) (p : QPainter R) :
    MeterPrivate.drawNeedle env ⟨d, p, paintParams env d⟩
      = ⟨d, ⟨p.font, p.saved, p.log ++ needlePrims env d⟩, paintParams env d⟩ := by
  by_cases hc : env.lt (env.add (env.add (env.div (env.ofUInt d.backgroundColor.red)
      (env.ofRat 65535)) (env.div (env.ofUInt d.backgroundColor.green) (env.ofRat 65535)))
      (env.div (env.ofUInt d.backgroundColor.blue) (env.ofRat 65535))) (env.ofRat 1) = true <;>
    simp [MeterPrivate.drawNeedle, needlePrims, hubStops, needleRotation, QColor.redF,
      QColor.greenF, QColor.blueF, hc, QPainter.save, QPainter.restore, QPainter.emit,
      QRadialGradient.setColorAt, insertStop]

/-- `drawLabels`, entered with the font of the widget, issues the labels after
what the painter had and leaves that font in place. -/
theorem drawLabels_eq {R : Type} (env : PaintEnv R) (d : MeterPrivate) (saved : List QFont)
    (log : List (Prim R)) :
    MeterPrivate.drawLabels env ⟨d, ⟨env.font, saved, log⟩, paintParams env d⟩
      = ⟨d, ⟨env.font, saved, log ++ labelPrims env d⟩, paintParams env d⟩ := by
  by_cases h1 : d.scaleGridStep > 0 ∧ d.drawGridValues = true <;>
    by_cases h2 : d.unitsLabel.isEmpty = true <;>
    by_cases h3 : d.label.isEmpty = true <;>
    by_cases h4 : d.drawValue = true <;>
    simp [MeterPrivate.drawLabels, labelPrims, stepsOf, h1, h2, h3, h4,
      foldl_drawLabelsStep, QPainter.save, QPainter.restore, QPainter.emit, QPainter.setFont]

/-- The arc phase issues exactly one pen and one arc for each range. -/
theorem arcPrims_length {R : Type} (env : PaintEnv R) (d : MeterPrivate) :
    (arcPrims env d).length = 2 * d.ranges.length + 2 := by
  have key : ∀ (ps : DrawParams R) (lo hi : ℚ) (l : RangeMap),
      (arcCalls env ps lo hi l).length = 2 * l.length := by
    intro ps lo hi l
    induction l with
    | nil => rfl
    | cons it rest ih => simp [arcCalls, ih]; omega
  simp [arcPrims, key]

/-- The primitives a paint issues, for any arithmetic and toolkit environment:
the two of `paintEvent` itself, then background, threshold arcs, scale ticks,
labels and needle; the painter ends with the font of the widget and nothing
saved, and `params` holds the values computed from the members. -/
theorem paintEvent_eq {R : Type} (env : PaintEnv R) (params0 : DrawParams R)
    (d : MeterPrivate) :
    Meter.paintEvent env params0 d
      = ⟨d, ⟨env.font, [],
          [Prim.setRenderHintAntialiasing, Prim.translate (env.ofRat 1) (env.ofRat 1)] ++
            backgroundPrims env d ++ arcPrims env d ++ tickPrims env d ++ labelPrims env d ++
            needlePrims env d⟩,
          paintParams env d⟩ := by
  unfold Meter.paintEvent
  simp only []
  rw [drawRanges_drawBackground_eq, drawScale_eq]
  have hf : (paintStart env).font = env.font := rfl
  have hs : (paintStart env).saved = [] := rfl
  have hl : (paintStart env).log =
      [Prim.setRenderHintAntialiasing, Prim.translate (env.ofRat 1) (env.ofRat 1)] := rfl
  rw [hf, hs, hl, drawLabels_eq, drawNeedle_eq]

/-- C6: for every arithmetic of `qreal` and every toolkit environment, a paint
returns the members as they were; its outcome does not depend on the initial
content of the local `params`, nor on the members no `draw...` method reads
(`currentThreshold`, `gridColor`), so two paints of equal members issue the
same primitives; and the primitives are, in this order, the two of `paintEvent`
itself, those of the background (the filled circle of diameter `2 * radius`),
of the threshold arcs (a pen and an arc for each range), of the scale ticks, of
the labels and of the needle, each phase between its own `save` and `restore`. -/
theorem paintEvent_function_of_members {R : Type} (env : PaintEnv R)
    (params0 params1 : DrawParams R) (d : MeterPrivate) (threshold : Int) (grid : QColor) :
    (Meter.paintEvent env params0 d).d = d ∧
    Meter.paintEvent env params0 d = Meter.paintEvent env params1 d ∧
    (Meter.paintEvent env params1 (withUnpainted d threshold grid)).painter
      = (Meter.paintEvent env params0 d).painter ∧
    (Meter.paintEvent env params0 d).painter.log =
      [Prim.setRenderHintAntialiasing, Prim.translate (env.ofRat 1) (env.ofRat 1)] ++
        backgroundPrims env d ++ arcPrims env d ++ tickPrims env d ++ labelPrims env d ++
        needlePrims env d ∧
    (Meter.paintEvent env params0 d).painter.font = env.font ∧
    (Meter.paintEvent env params0 d).painter.saved = [] := by
  refine ⟨?_, ?_, ?_, ?_, ?_, ?_⟩
  · rw [paintEvent_eq]
  · rw [paintEvent_eq, paintEvent_eq]
  · rw [paintEvent_eq, paintEvent_eq]
    rfl
  · rw [paintEvent_eq]
  · rw [paintEvent_eq]
  · rw [paintEvent_eq]

end MeterGauge
